import Mathlib

/-
Verification of the cloudflare-ddns reconciliation engine.

The canonical iteration of the engine lives in src/src/cloudflare_ddns.py
(class CloudFlare).  This file gives a shallow embedding of its data model
and operations:

* Python dicts are embedded as association lists (`alookup` / `ainsert` /
  `aerase`) with Python-dict semantics: unique keys, `ainsert` replaces in
  place keeping the position, `aerase` removes the key.
* Domain names are embedded as their lists of dot-separated labels
  (`Dom`); the Python string test `domain.endswith("." + zone)` becomes a
  strict label-list suffix test, and `f"{prefix}.{zone}"` becomes list
  append.  Labels are assumed already lower-case and free of dots, which
  is how both the provider API and the engine's own normalisation
  (`.lower()`, `.strip('.')`) deliver them.
* The remote provider is embedded closed-world on the success path: a
  create/update response echoes the submitted payload (the documented wire
  format returns the affected record), record ids are opaque and are
  modelled as naturals handed out by a `nextId` counter, and the record
  listing used by `__init_records_for_zone__` returns exactly the records
  the provider holds (which our mutation model keeps in `dns_records`).
* Every mutating HTTP call (create / update / delete) is recorded in a
  `calls` trace; list GETs are reads of the closed-world remote and are
  not traced.
* Python exceptions become `Except` results; state mutated before a raise
  stays mutated, which the `CFState × Except _ _` return type captures.
-/

/-- Dict lookup: first entry whose key equals the query. -/
def alookup {κ : Type} {α : Type} [DecidableEq κ] : List (κ × α) → κ → Option α
  | [], _ => none
  | (k, v) :: rest, k' => if k' = k then some v else alookup rest k'

/-- Dict store `d[k] = v`: replace in place if present, else append. -/
def ainsert {κ : Type} {α : Type} [DecidableEq κ] : List (κ × α) → κ → α → List (κ × α)
  | [], k, v => [(k, v)]
  | (k0, v0) :: rest, k, v =>
      if k = k0 then (k, v) :: rest else (k0, v0) :: ainsert rest k v

/-- Dict delete `del d[k]` (keys are unique in every state we build). -/
def aerase {κ : Type} {α : Type} [DecidableEq κ] : List (κ × α) → κ → List (κ × α)
  | [], _ => []
  | (k0, v0) :: rest, k =>
      if k = k0 then aerase rest k else (k0, v0) :: aerase rest k

/-- Dict membership test `k in d`. -/
def acontains {κ : Type} {α : Type} [DecidableEq κ] (l : List (κ × α)) (k : κ) : Bool :=
  (alookup l k).isSome

theorem alookup_ainsert {κ α : Type} [DecidableEq κ] (l : List (κ × α)) (k k' : κ) (v : α) :
    alookup (ainsert l k v) k' = if k' = k then some v else alookup l k' := by
  induction l with
  | nil => by_cases h : k' = k <;> simp [ainsert, alookup, h]
  | cons p rest ih =>
    obtain ⟨k0, v0⟩ := p
    by_cases h0 : k = k0
    · subst h0
      by_cases h : k' = k <;> simp [ainsert, alookup, h]
    · by_cases h : k' = k
      · subst h
        simp [ainsert, h0, alookup, Ne.symm h0, ih]
      · simp only [ainsert, if_neg h0, alookup]
        by_cases h1 : k' = k0
        · have h2 : ¬ k0 = k := fun hh => h (h1.trans hh)
          simp [h1, h2]
        · simp [h1, ih, h]

theorem alookup_aerase {κ α : Type} [DecidableEq κ] (l : List (κ × α)) (k k' : κ) :
    alookup (aerase l k) k' = if k' = k then none else alookup l k' := by
  induction l with
  | nil => by_cases h : k' = k <;> simp [aerase, alookup, h]
  | cons p rest ih =>
    obtain ⟨k0, v0⟩ := p
    by_cases h0 : k = k0
    · subst h0
      by_cases h : k' = k
      · subst h
        simp [aerase, ih]
      · simp [aerase, alookup, h, ih]
    · by_cases h : k' = k
      · subst h
        simp [aerase, h0, alookup, Ne.symm h0, ih]
      · simp only [aerase, if_neg h0, alookup]
        by_cases h1 : k' = k0
        · have h2 : ¬ k0 = k := fun hh => h (h1.trans hh)
          simp [h1, h2, alookup]
        · simp [h1, ih, h]

theorem alookup_mem {κ α : Type} [DecidableEq κ] (l : List (κ × α)) (k : κ) (v : α)
    (h : alookup l k = some v) : (k, v) ∈ l := by
  induction l with
  | nil => simp [alookup] at h
  | cons p rest ih =>
    obtain ⟨k0, v0⟩ := p
    by_cases h0 : k = k0
    · subst h0
      simp [alookup] at h
      simp [h]
    · simp [alookup, h0] at h
      exact List.mem_cons_of_mem _ (ih h)

/-- A domain name as its list of dot-separated labels ("home.a.com" is
["home", "a", "com"]). -/
abbrev Dom := List String

/-- Embedding of the Python test `domain.endswith("." + zone)` of
`CloudFlare.split_domain`: with clean dot-free labels it holds exactly when
the zone's label list is a strict suffix of the domain's label list. -/
def isZoneSuffix (domain zone : Dom) : Bool :=
  decide (zone <:+ domain) && decide (zone.length < domain.length)

/-- `CloudFlare.split_domain` (src/src/cloudflare_ddns.py lines 599-618):
walk `zones_list` in order and return `(prefix, zone)` for the first zone
such that the domain ends with `"." + zone`; the Python `return ()` on no
match is `none`. -/
def split_domain (zonesList : List Dom) (domain : Dom) : Option (Dom × Dom) :=
  match zonesList with
  | [] => none
  | z :: rest =>
      if isZoneSuffix domain z then
        some (domain.take (domain.length - z.length), z)
      else split_domain rest domain

/-- String comparison used for the Python `list.sort()` of zone-name
strings inside `sort_zones`. -/
def strLe (a b : String) : Bool := compare a b != Ordering.gt

/-- The zone-name string a label list denotes. -/
def zoneString (z : Dom) : String := String.intercalate "." z

/-- Insertion step of the lexicographic `t_dict[k].sort()` inside
`sort_zones`. -/
def insLex (z : Dom) : List Dom → List Dom
  | [] => [z]
  | w :: rest => if strLe (zoneString z) (zoneString w) then z :: w :: rest
      else w :: insLex z rest

/-- Lexicographic ascending sort of one label-count bucket. -/
def sortLex (l : List Dom) : List Dom := l.foldr insLex []

/-- Insertion step of the descending `t_key.sort(reverse=True)` on label
counts. -/
def insDesc (n : Nat) : List Nat → List Nat
  | [] => [n]
  | m :: rest => if m ≤ n then n :: m :: rest else m :: insDesc n rest

/-- Descending sort of the label counts present. -/
def sortDesc (l : List Nat) : List Nat := l.foldr insDesc []

/-- `sort_zones` (src/src/cloudflare_ddns.py lines 1024-1041): deduplicate,
bucket the zones by label count, sort the counts descending, sort each
bucket lexicographically, and concatenate the buckets. -/
def sort_zones (zones : List Dom) : List Dom :=
  let zs := zones.dedup
  let lens := sortDesc ((zs.map List.length).dedup)
  (lens.map (fun n => sortLex (zs.filter (fun z => decide (z.length = n))))).flatten

theorem mem_insLex (x z : Dom) (l : List Dom) :
    x ∈ insLex z l ↔ x = z ∨ x ∈ l := by
  induction l with
  | nil => simp [insLex]
  | cons w rest ih =>
    by_cases h : strLe (zoneString z) (zoneString w) = true
    · simp [insLex, h]
    · simp only [insLex, if_neg h, List.mem_cons, ih]
      tauto

theorem mem_sortLex (x : Dom) (l : List Dom) : x ∈ sortLex l ↔ x ∈ l := by
  induction l with
  | nil => simp [sortLex]
  | cons w rest ih =>
    simp only [sortLex, List.foldr] at ih ⊢
    rw [mem_insLex, ih, List.mem_cons]

theorem mem_insDesc (x n : Nat) (l : List Nat) :
    x ∈ insDesc n l ↔ x = n ∨ x ∈ l := by
  induction l with
  | nil => simp [insDesc]
  | cons m rest ih =>
    by_cases h : m ≤ n
    · simp [insDesc, h]
    · simp only [insDesc, if_neg h, List.mem_cons, ih]
      tauto

theorem mem_sortDesc (x : Nat) (l : List Nat) : x ∈ sortDesc l ↔ x ∈ l := by
  induction l with
  | nil => simp [sortDesc]
  | cons m rest ih =>
    simp only [sortDesc, List.foldr] at ih ⊢
    rw [mem_insDesc, ih, List.mem_cons]

theorem pairwise_insDesc (n : Nat) (l : List Nat)
    (h : l.Pairwise (fun a b => b ≤ a)) :
    (insDesc n l).Pairwise (fun a b => b ≤ a) := by
  induction l with
  | nil => simp [insDesc]
  | cons m rest ih =>
    rcases List.pairwise_cons.mp h with ⟨hm, hrest⟩
    by_cases hle : m ≤ n
    · simp only [insDesc, if_pos hle]
      refine List.pairwise_cons.mpr ⟨?_, h⟩
      intro b hb
      rcases List.mem_cons.mp hb with hb | hb
      · exact hb ▸ hle
      · exact le_trans (hm b hb) hle
    · simp only [insDesc, if_neg hle]
      refine List.pairwise_cons.mpr ⟨?_, ih hrest⟩
      intro b hb
      rcases (mem_insDesc b n rest).mp hb with hb | hb
      · exact hb ▸ le_of_not_le hle
      · exact hm b hb

theorem pairwise_sortDesc (l : List Nat) :
    (sortDesc l).Pairwise (fun a b => b ≤ a) := by
  induction l with
  | nil => simp [sortDesc]
  | cons m rest ih => exact pairwise_insDesc m _ ih

theorem mem_sort_zones (x : Dom) (zones : List Dom) :
    x ∈ sort_zones zones ↔ x ∈ zones := by
  simp only [sort_zones, List.mem_flatten, List.mem_map]
  constructor
  · rintro ⟨l, ⟨n, _, rfl⟩, hx⟩
    rw [mem_sortLex] at hx
    exact List.mem_dedup.mp (List.mem_filter.mp hx).1
  · intro hx
    refine ⟨sortLex ((zones.dedup).filter (fun z => decide (z.length = x.length))),
      ⟨x.length, ?_, rfl⟩, ?_⟩
    · rw [mem_sortDesc, List.mem_dedup]
      exact List.mem_map.mpr ⟨x, List.mem_dedup.mpr hx, rfl⟩
    · rw [mem_sortLex]
      exact List.mem_filter.mpr ⟨List.mem_dedup.mpr hx, by simp⟩

theorem length_eq_of_mem_bucket (zs : List Dom) (n : Nat) (x : Dom)
    (hx : x ∈ sortLex (zs.filter (fun z => decide (z.length = n)))) :
    x.length = n := by
  rw [mem_sortLex] at hx
  have := (List.mem_filter.mp hx).2
  simpa using this

theorem pairwise_const_length {R : Dom → Dom → Prop} (l : List Dom) (n : Nat)
    (hAll : ∀ x ∈ l, x.length = n) (hR : ∀ x y, x.length = y.length → R x y) :
    l.Pairwise R := by
  induction l with
  | nil => exact List.Pairwise.nil
  | cons a rest ih =>
    refine List.pairwise_cons.mpr ⟨?_, ih (fun x hx => hAll x (List.mem_cons_of_mem _ hx))⟩
    intro b hb
    exact hR a b ((hAll a (List.mem_cons_self _ _)).trans
      (hAll b (List.mem_cons_of_mem _ hb)).symm)

/-- `sort_zones` lists the zones in weakly decreasing label count. -/
theorem sort_zones_length_sorted (zones : List Dom) :
    (sort_zones zones).Pairwise (fun a b => b.length ≤ a.length) := by
  rw [sort_zones, List.pairwise_flatten]
  refine ⟨?_, ?_⟩
  · intro l hl
    rw [List.mem_map] at hl
    obtain ⟨n, _, rfl⟩ := hl
    exact pairwise_const_length _ n (length_eq_of_mem_bucket _ n)
      (fun x y h => le_of_eq h.symm)
  · rw [List.pairwise_map]
    have hp := pairwise_sortDesc ((zones.dedup.map List.length).dedup)
    refine List.Pairwise.imp_of_mem ?_ hp
    intro n m _ _ hnm x hx y hy
    rw [length_eq_of_mem_bucket _ n x hx, length_eq_of_mem_bucket _ m y hy]
    exact hnm

/-- Two suffixes of the same list with the same length coincide. -/
theorem suffix_eq_of_length_eq {α : Type} (z1 z2 d : List α)
    (h1 : z1 <:+ d) (h2 : z2 <:+ d) (h : z1.length = z2.length) : z1 = z2 := by
  obtain ⟨t1, rfl⟩ := h1
  obtain ⟨t2, ht⟩ := h2
  have hlen : t2.length = t1.length := by
    have := congrArg List.length ht
    simp only [List.length_append] at this
    omega
  have := congrArg (List.drop t2.length) ht
  rw [List.drop_left, hlen, List.drop_left] at this
  exact this.symm

theorem split_domain_finds_first (zsl : List Dom) (domain : Dom)
    (hsorted : zsl.Pairwise (fun a b => b.length ≤ a.length))
    (z0 : Dom) (hz0 : z0 ∈ zsl) (hsuf : isZoneSuffix domain z0 = true) :
    ∃ zb, split_domain zsl domain =
        some (domain.take (domain.length - zb.length), zb) ∧
      zb ∈ zsl ∧ isZoneSuffix domain zb = true ∧
      (∀ z' ∈ zsl, isZoneSuffix domain z' = true →
        z'.length ≤ zb.length ∧ (z'.length = zb.length → z' = zb)) := by
  induction zsl with
  | nil => cases hz0
  | cons z rest ih =>
    rcases List.pairwise_cons.mp hsorted with ⟨hz, hrest⟩
    by_cases hm : isZoneSuffix domain z = true
    · refine ⟨z, ?_, List.mem_cons_self _ _, hm, ?_⟩
      · simp [split_domain, hm]
      · intro z' hz' hsuf'
        rcases List.mem_cons.mp hz' with rfl | hz'
        · exact ⟨le_refl _, fun _ => rfl⟩
        · refine ⟨hz z' hz', fun hlen => ?_⟩
          have h1 : z' <:+ domain := by
            have := (Bool.and_eq_true _ _).mp hsuf'
            exact of_decide_eq_true this.1
          have h2 : z <:+ domain := by
            have := (Bool.and_eq_true _ _).mp hm
            exact of_decide_eq_true this.1
          exact suffix_eq_of_length_eq z' z domain h1 h2 hlen
    · have hz0' : z0 ∈ rest := by
        rcases List.mem_cons.mp hz0 with rfl | h
        · exact absurd hsuf hm
        · exact h
      obtain ⟨zb, heq, hmem, hsufb, hmax⟩ := ih hrest hz0'
      refine ⟨zb, ?_, List.mem_cons_of_mem _ hmem, hsufb, ?_⟩
      · simp [split_domain, hm, heq]
      · intro z' hz' hsuf'
        rcases List.mem_cons.mp hz' with rfl | hz'
        · exact absurd hsuf' hm
        · exact hmax z' hz' hsuf'

/-- C3: for every domain with at least one known zone as a proper dotted
suffix, `split_domain` over the `sort_zones`-sorted zone list returns the
pair whose zone has the maximum label count among all matching zones (the
matching zone of any given label count being unique), together with the
prefix obtained by removing that suffix; and the matched list is sorted by
label count descending, which is what makes the first match the longest and
the resolution deterministic. -/
theorem split_domain_longest_suffix (zones : List Dom) (domain : Dom)
    (h : ∃ z0, z0 ∈ zones ∧ isZoneSuffix domain z0 = true) :
    (∃ zb, split_domain (sort_zones zones) domain =
        some (domain.take (domain.length - zb.length), zb) ∧
      zb ∈ zones ∧ isZoneSuffix domain zb = true ∧
      (∀ z' ∈ zones, isZoneSuffix domain z' = true →
        z'.length ≤ zb.length ∧ (z'.length = zb.length → z' = zb))) ∧
    (sort_zones zones).Pairwise (fun a b => b.length ≤ a.length) := by
  obtain ⟨z0, hz0, hsuf⟩ := h
  have hz0' : z0 ∈ sort_zones zones := (mem_sort_zones z0 zones).mpr hz0
  obtain ⟨zb, heq, hmem, hsufb, hmax⟩ :=
    split_domain_finds_first (sort_zones zones) domain
      (sort_zones_length_sorted zones) z0 hz0' hsuf
  refine ⟨⟨zb, heq, (mem_sort_zones zb zones).mp hmem, hsufb, ?_⟩,
    sort_zones_length_sorted zones⟩
  intro z' hz' hsuf'
  exact hmax z' ((mem_sort_zones z' zones).mpr hz') hsuf'

/-- C3 witness: the concrete zone set containing "a.com" and "b.a.com"
resolves "x.b.a.com" to the three-label zone. -/
theorem split_domain_longest_suffix_witness :
    (∃ z0, z0 ∈ [["a", "com"], ["b", "a", "com"]] ∧
      isZoneSuffix ["x", "b", "a", "com"] z0 = true) ∧
    (∃ zb, split_domain (sort_zones [["a", "com"], ["b", "a", "com"]])
          ["x", "b", "a", "com"] =
        some ((["x", "b", "a", "com"] : Dom).take (4 - zb.length), zb) ∧
      zb ∈ [["a", "com"], ["b", "a", "com"]] ∧
      isZoneSuffix ["x", "b", "a", "com"] zb = true ∧
      (∀ z' ∈ [["a", "com"], ["b", "a", "com"]],
        isZoneSuffix ["x", "b", "a", "com"] z' = true →
          z'.length ≤ zb.length ∧ (z'.length = zb.length → z' = zb))) ∧
    (sort_zones [["a", "com"], ["b", "a", "com"]]).Pairwise
      (fun a b => b.length ≤ a.length) := by
  have h : ∃ z0, z0 ∈ [["a", "com"], ["b", "a", "com"]] ∧
      isZoneSuffix ["x", "b", "a", "com"] z0 = true := by
    refine ⟨["a", "com"], by decide, by decide⟩
  have := split_domain_longest_suffix [["a", "com"], ["b", "a", "com"]]
    ["x", "b", "a", "com"] h
  exact ⟨h, this.1, this.2⟩

/-- C4: evaluating the embedded `split_domain` at a domain exactly equal to
the single known zone: the `endswith("." + zone)` test fails, so the
function returns the empty tuple (no resolution with empty prefix), even
though its own docstring promises `("", zone)` in this case. -/
theorem split_domain_equal_zone_returns_nothing :
    split_domain (sort_zones [["example", "com"]]) ["example", "com"] = none := by
  decide

/-- Record ids are opaque strings assigned by the provider; the embedding
models them as naturals handed out by a counter. -/
abbrev RecId := Nat

/-- `<content> : <record id>` level of the per-zone nested cache view. -/
abbrev ContentMap := List (String × RecId)

/-- `<dns type> : ContentMap` level of the per-zone nested cache view. -/
abbrev TypeMap := List (String × ContentMap)

/-- `<full name> : TypeMap` level of the per-zone nested cache view,
the value of `self.zones[zone]["records"]`. -/
abbrev NameMap := List (Dom × TypeMap)

instance : DecidableEq ContentMap := inferInstance

instance : DecidableEq TypeMap := inferInstance

instance : DecidableEq NameMap := fun a b => List.hasDecEq a b

/-- A DNS record as cached in `self.dns_records` (the provider's record
object: id, zone_name, name, type, content, ttl, proxied). `rtype` stands
for the Python key "type", which is reserved in Lean. -/
structure DnsRecord where
  id : RecId
  zone_name : Dom
  name : Dom
  rtype : String
  content : String
  ttl : Nat
  proxied : Bool
deriving DecidableEq, Repr

/-- One value of `self.zones`: the zone id plus the optional "records" key
(absent until `__init_records_for_zone__` or a create touches the zone). -/
structure ZoneEntry where
  id : String
  records : Option NameMap
deriving DecidableEq, Repr

/-- The JSON body submitted to a create (POST) or update (PUT) call.
`ttl` is optional because `__update_record_by_id__` omits the key when no
usable ttl was supplied. -/
structure Payload where
  rtype : String
  name : Dom
  content : String
  ttl : Option Nat
  proxied : Bool
deriving DecidableEq, Repr

/-- One mutating HTTP call issued to the provider. -/
inductive RemoteCall where
  | create (zone_id : String) (payload : Payload)
  | update (zone_id : String) (record_id : RecId) (payload : Payload)
  | delete (zone_id : String) (record_id : RecId)
deriving DecidableEq, Repr

/-- The raise sites of the engine. -/
inductive CFError where
  | zoneNotFound (domain : Dom)
  | keyError
  | recordIdNotInCache (record_id : RecId)
  | recordKeyNotInCache (name : Dom) (rtype content : String)
  | inconsistentCache (record_id : RecId) (name : Dom) (rtype content : String)
  | outOfFuel
deriving DecidableEq, Repr

/-- The mutable state of a `CloudFlare` instance: the two cache views
(`zones` nested view and per-id `dns_records`), the sorted zone list, the
session defaults `self.ttl` / `self.proxied`, the provider's id counter,
and the trace of mutating HTTP calls issued so far. -/
structure CFState where
  zones : List (Dom × ZoneEntry)
  zones_list : List Dom
  dns_records : List (RecId × DnsRecord)
  ttl : Nat
  proxied : Bool
  nextId : RecId
  calls : List RemoteCall
deriving DecidableEq, Repr

/-- Lookup in the nested view `name -> type -> content -> id`. -/
def nmLookup (nm : NameMap) (n : Dom) (ty c : String) : Option RecId :=
  match alookup nm n with
  | none => none
  | some tm =>
      match alookup tm ty with
      | none => none
      | some cm => alookup cm c

/-- The ensure-and-assign dict chain of `__create_one_record__` lines
438-445 (create each missing intermediate dict, then store the id). -/
def nmInsert (nm : NameMap) (n : Dom) (ty c : String) (rid : RecId) : NameMap :=
  let tm := (alookup nm n).getD []
  let cm := (alookup tm ty).getD []
  ainsert nm n (ainsert tm ty (ainsert cm c rid))

/-- `del view[name][type][content]`; total by returning the map unchanged
when the path is missing (all call sites check the path first). -/
def nmErase (nm : NameMap) (n : Dom) (ty c : String) : NameMap :=
  match alookup nm n with
  | none => nm
  | some tm =>
      match alookup tm ty with
      | none => nm
      | some cm => ainsert nm n (ainsert tm ty (aerase cm c))

/-- Lookup across the zones map: `self.zones[zn]["records"][n][ty][c]`,
`none` when any level is missing. -/
def viewLookupZ (zones : List (Dom × ZoneEntry)) (zn n : Dom) (ty c : String) :
    Option RecId :=
  match alookup zones zn with
  | none => none
  | some ze =>
      match ze.records with
      | none => none
      | some nm => nmLookup nm n ty c

/-- `CloudFlare.__get_zone_name__` (lines 396-403): the domain itself when
it is a zone, else the zone component of `split_domain`, else raise. The
Python unpacking failure on the empty tuple is modelled as the same error
as the explicit raise. -/
def getZoneName (s : CFState) (domain : Dom) : Except CFError Dom :=
  if acontains s.zones domain then Except.ok domain
  else
    match split_domain s.zones_list domain with
    | some (_, zn) => Except.ok zn
    | none => Except.error (CFError.zoneNotFound domain)

/-- `CloudFlare.__get_zone_id__` (lines 389-394). -/
def getZoneId (s : CFState) (domain : Dom) : Except CFError String :=
  match getZoneName s domain with
  | Except.error e => Except.error e
  | Except.ok zn =>
      match alookup s.zones zn with
      | some ze => Except.ok ze.id
      | none => Except.error (CFError.zoneNotFound domain)

/-- Payload construction of `__create_one_record__` lines 416-427: a
truthy ttl other than the automatic sentinel 1 is used, else the session
default; a truthy boolean `proxied` is copied and, when true, forces
ttl to the automatic sentinel 1; otherwise the session default proxied
flag is used (so an explicit `proxied=False` also falls back to it). -/
def buildCreatePayload (defTtl : Nat) (defProxied : Bool) (name : Dom)
    (dnsType content : String) (ttlArg : Option Nat) (proxiedArg : Option Bool) :
    Payload :=
  let t : Nat :=
    match ttlArg with
    | some t0 => if t0 ≠ 0 ∧ t0 ≠ 1 then t0 else defTtl
    | none => defTtl
  match proxiedArg with
  | some true => { rtype := dnsType, name := name, content := content,
                   ttl := some 1, proxied := true }
  | some false => { rtype := dnsType, name := name, content := content,
                    ttl := some t, proxied := defProxied }
  | none => { rtype := dnsType, name := name, content := content,
              ttl := some t, proxied := defProxied }

/-- Payload construction of `__update_record_by_id__` lines 481-490: same
as create except that without a usable explicit ttl the payload simply
omits the ttl key (there is no fallback to the session default). -/
def buildUpdatePayload (defProxied : Bool) (name : Dom)
    (dnsType content : String) (ttlArg : Option Nat) (proxiedArg : Option Bool) :
    Payload :=
  let t : Option Nat :=
    match ttlArg with
    | some t0 => if t0 ≠ 0 ∧ t0 ≠ 1 then some t0 else none
    | none => none
  match proxiedArg with
  | some true => { rtype := dnsType, name := name, content := content,
                   ttl := some 1, proxied := true }
  | some false => { rtype := dnsType, name := name, content := content,
                    ttl := t, proxied := defProxied }
  | none => { rtype := dnsType, name := name, content := content,
              ttl := t, proxied := defProxied }

/-- `CloudFlare.__create_one_record__` (lines 405-446): resolve the zone,
build the payload, POST it (traced), store the echoed record in
`self.dns_records` under the provider-assigned fresh id, and write the id
into the nested zone view, creating missing intermediate dicts. -/
def createOneRecord (s : CFState) (name : Dom) (dnsType content : String)
    (ttlArg : Option Nat) (proxiedArg : Option Bool) :
    CFState × Except CFError DnsRecord :=
  match getZoneId s name with
  | Except.error e => (s, Except.error e)
  | Except.ok zone_id =>
    match getZoneName s name with
    | Except.error e => (s, Except.error e)
    | Except.ok zone_name =>
      match alookup s.zones zone_name with
      | none => (s, Except.error CFError.keyError)
      | some ze =>
        let data := buildCreatePayload s.ttl s.proxied name dnsType content
          ttlArg proxiedArg
        let t_record : DnsRecord :=
          { id := s.nextId, zone_name := zone_name, name := name,
            rtype := dnsType, content := content,
            ttl := data.ttl.getD s.ttl, proxied := data.proxied }
        let nm := ze.records.getD []
        let nm2 := nmInsert nm t_record.name t_record.rtype t_record.content
          t_record.id
        let ze2 := { ze with records := some nm2 }
        ({ s with
            calls := s.calls ++ [RemoteCall.create zone_id data],
            dns_records := ainsert s.dns_records t_record.id t_record,
            zones := ainsert s.zones zone_name ze2,
            nextId := s.nextId + 1 },
          Except.ok t_record)

/-- `CloudFlare.__update_record_by_id__` (lines 448-510): resolve the
zone, double-check the id against both cache views (raising on a missing
id, a missing content key, or an id mismatch, each before any remote
call), PUT the payload (traced), store the echoed record under the same
id, and move the content key in the nested view only when the content
changed. -/
def updateRecordById (s : CFState) (record_id : RecId) (name : Dom)
    (dnsType content : String) (ttlArg : Option Nat) (proxiedArg : Option Bool) :
    CFState × Except CFError DnsRecord :=
  match getZoneId s name with
  | Except.error e => (s, Except.error e)
  | Except.ok zone_id =>
    match getZoneName s name with
    | Except.error e => (s, Except.error e)
    | Except.ok zone_name =>
      match alookup s.dns_records record_id with
      | none => (s, Except.error (CFError.recordIdNotInCache record_id))
      | some old_record =>
        let old_content := old_record.content
        match alookup s.zones zone_name with
        | none => (s, Except.error CFError.keyError)
        | some ze =>
          match ze.records with
          | none => (s, Except.error
              (CFError.recordKeyNotInCache name dnsType old_content))
          | some nm =>
            match nmLookup nm name dnsType old_content with
            | none => (s, Except.error
                (CFError.recordKeyNotInCache name dnsType old_content))
            | some found_id =>
              if found_id ≠ record_id then
                (s, Except.error
                  (CFError.inconsistentCache record_id name dnsType old_content))
              else
                let data := buildUpdatePayload s.proxied name dnsType content
                  ttlArg proxiedArg
                let t_record : DnsRecord :=
                  { id := record_id, zone_name := zone_name, name := name,
                    rtype := dnsType, content := content,
                    ttl := data.ttl.getD old_record.ttl,
                    proxied := data.proxied }
                let s2 := { s with
                  calls := s.calls ++
                    [RemoteCall.update zone_id record_id data],
                  dns_records := ainsert s.dns_records record_id t_record }
                if old_content ≠ content then
                  let nm2 := nmInsert (nmErase nm name dnsType old_content)
                    name dnsType content record_id
                  let ze2 := { ze with records := some nm2 }
                  ({ s2 with zones := ainsert s2.zones zone_name ze2 },
                    Except.ok t_record)
                else (s2, Except.ok t_record)

/-- `CloudFlare.__delete_record_by_id__` (lines 512-557): double-check the
id against both cache views (raising before any remote call on a missing
id, missing content key, or id mismatch), DELETE (traced), then remove the
record from both views. Returns `(dns_type, content)` of the deleted
record (the Python `(True, rsp, dns_type, content)` tuple). -/
def deleteRecordById (s : CFState) (zone_id : String) (record_id : RecId) :
    CFState × Except CFError (String × String) :=
  match alookup s.dns_records record_id with
  | none => (s, Except.error (CFError.recordIdNotInCache record_id))
  | some record =>
    let content := record.content
    let name := record.name
    let zone_name := record.zone_name
    let dnsType := record.rtype
    match alookup s.zones zone_name with
    | none => (s, Except.error CFError.keyError)
    | some ze =>
      match ze.records with
      | none => (s, Except.error
          (CFError.recordKeyNotInCache name dnsType content))
      | some nm =>
        match nmLookup nm name dnsType content with
        | none => (s, Except.error
            (CFError.recordKeyNotInCache name dnsType content))
        | some found_id =>
          if found_id ≠ record_id then
            (s, Except.error
              (CFError.inconsistentCache record_id name dnsType content))
          else
            let ze2 := { ze with records := some (nmErase nm name dnsType content) }
            ({ s with
                calls := s.calls ++ [RemoteCall.delete zone_id record_id],
                dns_records := aerase s.dns_records record_id,
                zones := ainsert s.zones zone_name ze2 },
              Except.ok (dnsType, content))

/-- The record listing `__init_records_for_zone__` rebuilds from the
provider: in the closed-world model the provider holds exactly the records
of `s.dns_records`, filtered to the requested zone, in insertion order. -/
def rebuildZoneRecords (s : CFState) (zone : Dom) : NameMap :=
  s.dns_records.foldl
    (fun nm p =>
      if p.2.zone_name = zone then
        nmInsert nm p.2.name p.2.rtype p.2.content p.2.id
      else nm)
    []

/-- `CloudFlare.__init_records_for_zone__` (lines 276-345) with the
pagination loop collapsed into one complete listing (the loop itself is
embedded separately as `fetchLoop`): ensure the "records" key, rebuild the
name map from the provider's records for the zone, and merge it over the
existing map with the name-level `dict.update`. Re-storing each listed
record into `self.dns_records` (line 326) is the identity here because the
closed-world provider returns exactly the cached records. -/
def initRecordsForZone (s : CFState) (zone : Dom) :
    CFState × Except CFError Unit :=
  match alookup s.zones zone with
  | none => (s, Except.error (CFError.zoneNotFound zone))
  | some ze =>
    let base := ze.records.getD []
    let fresh := rebuildZoneRecords s zone
    let merged := fresh.foldl (fun nm p => ainsert nm p.1 p.2) base
    let ze2 := { ze with records := some merged }
    ({ s with zones := ainsert s.zones zone ze2 }, Except.ok ())

/-- `CloudFlare.__get_records_for_zone__` (lines 347-352); the
`["records"]` subscript on an uninitialised zone is a Python `KeyError`. -/
def getRecordsForZone (s : CFState) (zone : Dom) : Except CFError NameMap :=
  match alookup s.zones zone with
  | none => Except.error (CFError.zoneNotFound zone)
  | some ze =>
    match ze.records with
    | none => Except.error CFError.keyError
    | some nm => Except.ok nm

/-- `CloudFlare.__get_records_for_domain__` (lines 363-368). -/
def getRecordsForDomain (s : CFState) (full : Dom) : Except CFError TypeMap :=
  match getZoneName s full with
  | Except.error e => Except.error e
  | Except.ok zn =>
    match getRecordsForZone s zn with
    | Except.error e => Except.error e
    | Except.ok nm => Except.ok ((alookup nm full).getD [])

/-- `CloudFlare.__get_records_for_domain_and_type__` (lines 370-377):
the full name is `f"{prefix}.{zone}"`, the result a copy of the content
dict for the requested type (empty when absent). -/
def getRecordsForDomainAndType (s : CFState) (zone pfx : Dom) (dnsType : String) :
    Except CFError ContentMap :=
  match getRecordsForDomain s (pfx ++ zone) with
  | Except.error e => Except.error e
  | Except.ok tm => Except.ok ((alookup tm dnsType).getD [])

/-- C9: every create or update payload built with `proxied` explicitly
true carries ttl = 1 (the automatic sentinel), whatever explicit ttl was
supplied and whatever the session defaults are. -/
theorem proxied_forces_automatic_ttl (defTtl : Nat) (defProxied : Bool)
    (name : Dom) (dnsType content : String) (ttlArg : Option Nat) :
    (buildCreatePayload defTtl defProxied name dnsType content ttlArg
      (some true)).ttl = some 1 ∧
    (buildUpdatePayload defProxied name dnsType content ttlArg
      (some true)).ttl = some 1 := by
  exact ⟨rfl, rfl⟩

/-- One `(content, ttl, proxied)` work item of the reconciliation loops. -/
abbrev WorkItem := String × Nat × Bool

/-- `content -> (ttl, proxied)` level of the target-state tree. -/
abbrev ContentSpec := List (String × (Nat × Bool))

/-- `type -> ContentSpec` level of the target-state tree. -/
abbrev TypeSpec := List (String × ContentSpec)

/-- `prefix -> TypeSpec` level of the target-state tree. -/
abbrev PfxSpec := List (Dom × TypeSpec)

/-- The full target tree `{zone: {prefix: {type: {content: (ttl, proxied)}}}}`. -/
abbrev RecordsDict := List (Dom × PfxSpec)

/-- The partition loop of `update_records_new` (lines 899-909): walk the
target contents in order and split them into those already present in the
current content dict and those missing, keeping their (ttl, proxied). -/
def partitionContents (current : ContentMap) : ContentSpec →
    List WorkItem × List WorkItem
  | [] => ([], [])
  | (c, (t, p)) :: rest =>
      let (ex, ne) := partitionContents current rest
      if (alookup current c).isSome then ((c, t, p) :: ex, ne)
      else (ex, (c, t, p) :: ne)

/-- The extra-record scan of `update_records_new` (lines 910-925): a
current record is extra when its own prefix (its cached name with the
`"." + zone` suffix removed, the loop rebinding `t_prefix`) is not a key
of the zone's target dict, or its cached type is not in the outer prefix's
target dict, or its content is not in the outer type's content dict.
Reading `self.dns_records[t_record_id]` on a stale id is a `KeyError`. -/
def computeExtras (s : CFState) (zonePfxs : PfxSpec) (pfxObj : TypeSpec)
    (dnsObj : ContentSpec) (t_zone : Dom) : ContentMap →
    Except CFError (List String)
  | [] => Except.ok []
  | (c, rid) :: rest =>
      match alookup s.dns_records rid with
      | none => Except.error CFError.keyError
      | some r =>
          let recPfx : Dom :=
            if isZoneSuffix r.name t_zone then
              r.name.take (r.name.length - t_zone.length)
            else r.name
          let isExtra : Bool :=
            !(acontains zonePfxs recPfx) || !(acontains pfxObj r.rtype) ||
              !(acontains dnsObj c)
          match computeExtras s zonePfxs pfxObj dnsObj t_zone rest with
          | Except.error e => Except.error e
          | Except.ok extras =>
              Except.ok (if isExtra then c :: extras else extras)

/-- The update loop of `update_records_new` (lines 926-940): one
`__update_record_by_id__` per existing target content, unconditionally,
using the id from the snapshot content dict. -/
def updateLoop (s : CFState) (full : Dom) (dnsType : String)
    (current : ContentMap) : List WorkItem → CFState × Except CFError Unit
  | [] => (s, Except.ok ())
  | (c, t, p) :: rest =>
      match alookup current c with
      | none => updateLoop s full dnsType current rest
      | some rid =>
          match updateRecordById s rid full dnsType c (some t) (some p) with
          | (s1, Except.error e) => (s1, Except.error e)
          | (s1, Except.ok _) => updateLoop s1 full dnsType current rest

/-- The delete loop of `update_records_new` (lines 941-947). -/
def deleteExtrasLoop (s : CFState) (zone_id : String) (current : ContentMap) :
    List String → CFState × Except CFError Unit
  | [] => (s, Except.ok ())
  | c :: rest =>
      match alookup current c with
      | none => (s, Except.error CFError.keyError)
      | some rid =>
          match deleteRecordById s zone_id rid with
          | (s1, Except.error e) => (s1, Except.error e)
          | (s1, Except.ok _) => deleteExtrasLoop s1 zone_id current rest

/-- The create loop of `update_records_new` (lines 948-960): `while` the
missing list is non-empty, create its FIRST element. The source never
removes the element it just processed, so on a non-empty list the loop
re-creates the head forever; the embedding makes that divergence a fuel
bound, reported as `CFError.outOfFuel`. -/
def createLoop (fuel : Nat) (s : CFState) (full : Dom) (dnsType : String)
    (items : List WorkItem) : CFState × Except CFError Unit :=
  match items with
  | [] => (s, Except.ok ())
  | (c, t, p) :: _ =>
      match fuel with
      | 0 => (s, Except.error CFError.outOfFuel)
      | fuel' + 1 =>
          match createOneRecord s full dnsType c (some t) (some p) with
          | (s1, Except.error e) => (s1, Except.error e)
          | (s1, Except.ok _) => createLoop fuel' s1 full dnsType items

/-- The per-type body of `update_records_new` (lines 892-960): snapshot
the current content dict, partition the target contents, compute the
extras, then update, delete, create in that order. -/
def processType (fuel : Nat) (s : CFState) (zonePfxs : PfxSpec)
    (t_zone : Dom) (zone_id : String) (pfxObj : TypeSpec) (pfx : Dom)
    (dnsType : String) (dnsObj : ContentSpec) : CFState × Except CFError Unit :=
  let full := pfx ++ t_zone
  match getRecordsForDomainAndType s t_zone pfx dnsType with
  | Except.error e => (s, Except.error e)
  | Except.ok current =>
      let (ex, ne) := partitionContents current dnsObj
      match computeExtras s zonePfxs pfxObj dnsObj t_zone current with
      | Except.error e => (s, Except.error e)
      | Except.ok extras =>
          match updateLoop s full dnsType current ex with
          | (s1, Except.error e) => (s1, Except.error e)
          | (s1, Except.ok _) =>
              match deleteExtrasLoop s1 zone_id current extras with
              | (s2, Except.error e) => (s2, Except.error e)
              | (s2, Except.ok _) => createLoop fuel s2 full dnsType ne

/-- The type loop of `update_records_new` within one prefix. -/
def processTypeList (fuel : Nat) (s : CFState) (zonePfxs : PfxSpec)
    (t_zone : Dom) (zone_id : String) (pfx : Dom) (pfxObj : TypeSpec) :
    List (String × ContentSpec) → CFState × Except CFError Unit
  | [] => (s, Except.ok ())
  | (dnsType, dnsObj) :: rest =>
      match processType fuel s zonePfxs t_zone zone_id pfxObj pfx dnsType dnsObj with
      | (s1, Except.error e) => (s1, Except.error e)
      | (s1, Except.ok _) =>
          processTypeList fuel s1 zonePfxs t_zone zone_id pfx pfxObj rest

/-- The prefix loop of `update_records_new`. -/
def processPfxList (fuel : Nat) (s : CFState) (zonePfxs : PfxSpec)
    (t_zone : Dom) (zone_id : String) : PfxSpec → CFState × Except CFError Unit
  | [] => (s, Except.ok ())
  | (pfx, pfxObj) :: rest =>
      match processTypeList fuel s zonePfxs t_zone zone_id pfx pfxObj pfxObj with
      | (s1, Except.error e) => (s1, Except.error e)
      | (s1, Except.ok _) => processPfxList fuel s1 zonePfxs t_zone zone_id rest

/-- `CloudFlare.update_records_new` (lines 878-960): per target zone,
resolve the zone id, refresh the zone's records from the provider, then
reconcile each (prefix, type) group. -/
def updateRecordsNew (fuel : Nat) (s : CFState) :
    RecordsDict → CFState × Except CFError Unit
  | [] => (s, Except.ok ())
  | (t_zone, zonePfxs) :: rest =>
      match getZoneId s t_zone with
      | Except.error e => (s, Except.error e)
      | Except.ok zone_id =>
          match initRecordsForZone s t_zone with
          | (s1, Except.error e) => (s1, Except.error e)
          | (s1, Except.ok _) =>
              match processPfxList fuel s1 zonePfxs t_zone zone_id zonePfxs with
              | (s2, Except.error e) => (s2, Except.error e)
              | (s2, Except.ok _) => updateRecordsNew fuel s2 rest

/-- The id collection of `delete_records_new` for one prefix (lines
794-809): with an empty type dict take every id under the full name, else
every id of each listed type (the listed contents are not consulted). -/
def collectIdsForPfx (s : CFState) (t_zone pfx : Dom) :
    TypeSpec → Except CFError (List RecId)
  | [] =>
      match getRecordsForDomain s (pfx ++ t_zone) with
      | Except.error e => Except.error e
      | Except.ok tm => Except.ok (tm.foldl (fun acc p => acc ++ p.2.map Prod.snd) [])
  | (dnsType, _) :: rest =>
      match getRecordsForDomainAndType s t_zone pfx dnsType with
      | Except.error e => Except.error e
      | Except.ok current =>
          match collectIdsForPfx s t_zone pfx rest with
          | Except.error e => Except.error e
          | Except.ok ids => Except.ok (current.map Prod.snd ++ ids)

/-- The inner deletion sweep of `delete_records_new` (lines 810-822). -/
def deleteIdsLoop (s : CFState) (zone_id : String) :
    List RecId → CFState × Except CFError Unit
  | [] => (s, Except.ok ())
  | rid :: rest =>
      match deleteRecordById s zone_id rid with
      | (s1, Except.error e) => (s1, Except.error e)
      | (s1, Except.ok _) => deleteIdsLoop s1 zone_id rest

/-- The prefix loop of `delete_records_new` (lines 794-822): the
accumulated `record_id_list_for_del` is carried over from one prefix to
the next (the source never resets it inside the zone), and the whole
accumulated list is swept after every prefix. -/
def deletePfxLoop (s : CFState) (t_zone : Dom) (zone_id : String)
    (accum : List RecId) : PfxSpec → CFState × Except CFError Unit
  | [] => (s, Except.ok ())
  | (pfx, tySpec) :: rest =>
      match collectIdsForPfx s t_zone pfx tySpec with
      | Except.error e => (s, Except.error e)
      | Except.ok newIds =>
          let accum2 := accum ++ newIds
          match deleteIdsLoop s zone_id accum2 with
          | (s1, Except.error e) => (s1, Except.error e)
          | (s1, Except.ok _) => deletePfxLoop s1 t_zone zone_id accum2 rest

/-- `CloudFlare.delete_records_new` (lines 782-822). -/
def deleteRecordsNew (s : CFState) :
    RecordsDict → CFState × Except CFError Unit
  | [] => (s, Except.ok ())
  | (t_zone, pfxs) :: rest =>
      match initRecordsForZone s t_zone with
      | (s1, Except.error e) => (s1, Except.error e)
      | (s1, Except.ok _) =>
          match getZoneId s1 t_zone with
          | Except.error e => (s1, Except.error e)
          | Except.ok zone_id =>
              match deletePfxLoop s1 t_zone zone_id [] pfxs with
              | (s2, Except.error e) => (s2, Except.error e)
              | (s2, Except.ok _) => deleteRecordsNew s2 rest

/-- C1 scenario, remote record 1: home.a.com A 1.1.1.1 ttl 300. -/
def c1_rec1 : DnsRecord :=
  { id := 1, zone_name := ["a", "com"], name := ["home", "a", "com"],
    rtype := "A", content := "1.1.1.1", ttl := 300, proxied := false }

/-- C1 scenario, remote record 2: home.a.com A 2.2.2.2 ttl 300. -/
def c1_rec2 : DnsRecord :=
  { id := 2, zone_name := ["a", "com"], name := ["home", "a", "com"],
    rtype := "A", content := "2.2.2.2", ttl := 300, proxied := false }

/-- C1 scenario, nested cache view of zone a.com. -/
def c1_view : NameMap :=
  [(["home", "a", "com"], [("A", [("1.1.1.1", 1), ("2.2.2.2", 2)])])]

/-- C1 scenario, session state: one zone, two cached records that already
match the target exactly. -/
def c1_s0 : CFState :=
  { zones := [(["a", "com"], { id := "z1", records := some c1_view })],
    zones_list := [["a", "com"]],
    dns_records := [(1, c1_rec1), (2, c1_rec2)],
    ttl := 300, proxied := false, nextId := 3, calls := [] }

/-- C1 scenario, target tree: the very records already present, with the
same ttl and proxied flags. -/
def c1_tree : RecordsDict :=
  [(["a", "com"],
    [(["home"],
      [("A", [("1.1.1.1", (300, false)), ("2.2.2.2", (300, false))])])])]

/-- First reconciliation run of the C1 scenario. -/
def c1_run1 : CFState × Except CFError Unit := updateRecordsNew 8 c1_s0 c1_tree

/-- State after the first run, with the call trace cleared so that the
second run's calls can be read off directly. -/
def c1_s1 : CFState := { c1_run1.1 with calls := [] }

/-- Second reconciliation run of the C1 scenario, against the unchanged
remote state the first run left behind. -/
def c1_run2 : CFState × Except CFError Unit := updateRecordsNew 8 c1_s1 c1_tree

/-- C1 counterexample: both runs succeed, yet the second run against the
unchanged, already-matching remote state issues remote calls — not the
zero calls the claim demands. -/
theorem second_run_not_zero_calls :
    c1_run1.2 = Except.ok () ∧ c1_run2.2 = Except.ok () ∧
    c1_run2.1.calls ≠ [] := by
  refine ⟨rfl, rfl, ?_⟩
  decide

/-- C1 amended: the second run performs zero create and zero delete calls,
but one update call per target content — `update_records_new` updates
every existing content unconditionally even though ttl and proxied already
match the desired values. -/
theorem second_run_updates_every_content :
    c1_run2.2 = Except.ok () ∧
    c1_run2.1.calls =
      [RemoteCall.update "z1" 1
        { rtype := "A", name := ["home", "a", "com"], content := "1.1.1.1",
          ttl := some 300, proxied := false },
       RemoteCall.update "z1" 2
        { rtype := "A", name := ["home", "a", "com"], content := "2.2.2.2",
          ttl := some 300, proxied := false }] := by
  exact ⟨rfl, rfl⟩

/-- C2 scenario, session state: one zone with no records at all. -/
def c2_s0 : CFState :=
  { zones := [(["a", "com"], { id := "z1", records := some [] })],
    zones_list := [["a", "com"]],
    dns_records := [], ttl := 300, proxied := false, nextId := 1, calls := [] }

/-- C2 scenario, target tree: one (zone, prefix) CNAME group with two
distinct contents. -/
def c2_tree : RecordsDict :=
  [(["a", "com"],
    [(["www"],
      [("CNAME",
        [("target1.com", (300, false)), ("target2.com", (300, false))])])])]

/-- C2 run of `update_records_new` (with fuel 2 for the unpopped create
loop). -/
def c2_run : CFState × Except CFError Unit := updateRecordsNew 2 c2_s0 c2_tree

/-- C2 evaluation: submitted a two-content CNAME group,
`update_records_new` performs no CNAME-exclusivity check at all: it issues
remote create calls for the group (here twice for the same first content,
because the create loop never removes the element it processed, before the
fuel bound cuts the divergence). The claimed rejection with zero remote
calls does not happen. -/
theorem cname_group_not_rejected :
    c2_run.1.calls =
      [RemoteCall.create "z1"
        { rtype := "CNAME", name := ["www", "a", "com"],
          content := "target1.com", ttl := some 300, proxied := false },
       RemoteCall.create "z1"
        { rtype := "CNAME", name := ["www", "a", "com"],
          content := "target1.com", ttl := some 300, proxied := false }] ∧
    c2_run.2 = Except.error CFError.outOfFuel := by
  exact ⟨rfl, rfl⟩

/-- C10 scenario, remote record 1: home.a.com A 1.1.1.1. -/
def c10_rec1 : DnsRecord :=
  { id := 1, zone_name := ["a", "com"], name := ["home", "a", "com"],
    rtype := "A", content := "1.1.1.1", ttl := 300, proxied := false }

/-- C10 scenario, remote record 2: www.a.com A 2.2.2.2. -/
def c10_rec2 : DnsRecord :=
  { id := 2, zone_name := ["a", "com"], name := ["www", "a", "com"],
    rtype := "A", content := "2.2.2.2", ttl := 300, proxied := false }

/-- C10 scenario, nested cache view of zone a.com. -/
def c10_view : NameMap :=
  [(["home", "a", "com"], [("A", [("1.1.1.1", 1)])]),
   (["www", "a", "com"], [("A", [("2.2.2.2", 2)])])]

/-- C10 scenario, session state: one zone, one record under each of two
prefixes. -/
def c10_s0 : CFState :=
  { zones := [(["a", "com"], { id := "z1", records := some c10_view })],
    zones_list := [["a", "com"]],
    dns_records := [(1, c10_rec1), (2, c10_rec2)],
    ttl := 300, proxied := false, nextId := 3, calls := [] }

theorem deleteRecordById_dns (s : CFState) (zone_id : String) (rid : RecId)
    (s' : CFState) (res : String × String)
    (heq : deleteRecordById s zone_id rid = (s', Except.ok res)) :
    s'.dns_records = aerase s.dns_records rid := by
  rw [deleteRecordById] at heq
  cases hold : alookup s.dns_records rid with
  | none => simp only [hold] at heq; simp at heq
  | some rec0 =>
    simp only [hold] at heq
    cases hz3 : alookup s.zones rec0.zone_name with
    | none => simp only [hz3] at heq; simp at heq
    | some ze =>
      simp only [hz3] at heq
      cases hrec : ze.records with
      | none => simp only [hrec] at heq; simp at heq
      | some nm =>
        simp only [hrec] at heq
        cases hfound : nmLookup nm rec0.name rec0.rtype rec0.content with
        | none => simp only [hfound] at heq; simp at heq
        | some fid =>
          simp only [hfound] at heq
          by_cases hfid : fid = rid
          · subst hfid
            rw [if_neg (by simp)] at heq
            simp only [Prod.mk.injEq, Except.ok.injEq] at heq
            obtain ⟨hs', _⟩ := heq
            subst hs'
            rfl
          · rw [if_pos hfid] at heq
            simp at heq

/-- The delete attempted on a record id absent from the local cache raises
the `CloudFlareError` before any remote call or cache change. -/
theorem deleteRecordById_absent (s : CFState) (zone_id : String) (rid : RecId)
    (habs : alookup s.dns_records rid = none) :
    deleteRecordById s zone_id rid =
      (s, Except.error (CFError.recordIdNotInCache rid)) := by
  rw [deleteRecordById, habs]

theorem deleteIdsLoop_keeps_absent (zone_id : String) :
    ∀ (ids : List RecId) (s s' : CFState) (rid0 : RecId),
      alookup s.dns_records rid0 = none →
      deleteIdsLoop s zone_id ids = (s', Except.ok ()) →
      alookup s'.dns_records rid0 = none := by
  intro ids
  induction ids with
  | nil =>
    intro s s' rid0 habs heq
    rw [deleteIdsLoop] at heq
    cases heq
    exact habs
  | cons rid rest ih =>
    intro s s' rid0 habs heq
    rw [deleteIdsLoop] at heq
    cases hdel : deleteRecordById s zone_id rid with
    | mk s1 r =>
      simp only [hdel] at heq
      cases r with
      | error e => simp at heq
      | ok res =>
        have hdns := deleteRecordById_dns s zone_id rid s1 res hdel
        refine ih s1 s' rid0 ?_ heq
        rw [hdns, alookup_aerase]
        by_cases hh : rid0 = rid
        · rw [if_pos hh]
        · rw [if_neg hh]
          exact habs

theorem deleteIdsLoop_removes (zone_id : String) :
    ∀ (ids : List RecId) (s s' : CFState),
      deleteIdsLoop s zone_id ids = (s', Except.ok ()) →
      ∀ rid ∈ ids, alookup s'.dns_records rid = none := by
  intro ids
  induction ids with
  | nil =>
    intro s s' _ rid hmem
    cases hmem
  | cons rid0 rest ih =>
    intro s s' heq rid hmem
    rw [deleteIdsLoop] at heq
    cases hdel : deleteRecordById s zone_id rid0 with
    | mk s1 r =>
      simp only [hdel] at heq
      cases r with
      | error e => simp at heq
      | ok res =>
        have hdns := deleteRecordById_dns s zone_id rid0 s1 res hdel
        rcases List.mem_cons.mp hmem with rfl | hmem'
        · refine deleteIdsLoop_keeps_absent zone_id rest s1 s' rid ?_ heq
          rw [hdns, alookup_aerase, if_pos rfl]
        · exact ih s1 s' heq rid hmem'

/-- C10: for every delete request whose first zone holds two (or more)
prefixes, where the first prefix matches at least one cached record
(collected ids `rid1 :: ids1'`) and its sweep succeeds, and the second
prefix's collection succeeds, `delete_records_new` raises the
record-id-not-in-local-cache `CloudFlareError` on `rid1` — the id already
deleted for the first prefix and re-attempted because the accumulated
deletion list is never cleared between prefixes — and halts in the state
the first sweep left, so none of the remaining deletions (the second
prefix's records, later prefixes, later zones) is performed. -/
theorem delete_accum_not_cleared_between_prefixes
    (s s0 s1 : CFState) (t_zone pfx1 pfx2 : Dom) (tys1 tys2 : TypeSpec)
    (rest : PfxSpec) (moreZones : RecordsDict) (zone_id : String)
    (rid1 : RecId) (ids1' ids2 : List RecId)
    (h0 : initRecordsForZone s t_zone = (s0, Except.ok ()))
    (h1 : getZoneId s0 t_zone = Except.ok zone_id)
    (h2 : collectIdsForPfx s0 t_zone pfx1 tys1 = Except.ok (rid1 :: ids1'))
    (h3 : deleteIdsLoop s0 zone_id (rid1 :: ids1') = (s1, Except.ok ()))
    (h4 : collectIdsForPfx s1 t_zone pfx2 tys2 = Except.ok ids2) :
    deleteRecordsNew s
        ((t_zone, (pfx1, tys1) :: (pfx2, tys2) :: rest) :: moreZones) =
      (s1, Except.error (CFError.recordIdNotInCache rid1)) ∧
    alookup s1.dns_records rid1 = none := by
  have habs : alookup s1.dns_records rid1 = none :=
    deleteIdsLoop_removes zone_id (rid1 :: ids1') s0 s1 h3 rid1
      (List.mem_cons_self _ _)
  refine ⟨?_, habs⟩
  rw [deleteRecordsNew]
  simp only [h0, h1]
  rw [deletePfxLoop]
  simp only [h2, List.nil_append, h3]
  rw [deletePfxLoop]
  simp only [h4, List.cons_append]
  rw [deleteIdsLoop]
  simp only [deleteRecordById_absent s1 zone_id rid1 habs]

/-- C10 witness: the concrete two-prefix request over the two-record
session. The first sweep deletes record 1; processing the second prefix
re-attempts the stale id 1, so the engine stops with the cache error in
the post-first-sweep state. -/
theorem delete_accum_not_cleared_between_prefixes_witness :
    (deleteRecordsNew c10_s0
        [(["a", "com"], [(["home"], []), (["www"], [])])] =
      ((deleteIdsLoop (initRecordsForZone c10_s0 ["a", "com"]).1 "z1" [1]).1,
        Except.error (CFError.recordIdNotInCache 1)) ∧
    alookup ((deleteIdsLoop (initRecordsForZone c10_s0 ["a", "com"]).1 "z1"
      [1]).1).dns_records 1 = none) :=
  delete_accum_not_cleared_between_prefixes c10_s0
    (initRecordsForZone c10_s0 ["a", "com"]).1
    (deleteIdsLoop (initRecordsForZone c10_s0 ["a", "com"]).1 "z1" [1]).1
    ["a", "com"] ["home"] ["www"] [] [] [] [] "z1" 1 [] [2]
    rfl rfl rfl rfl rfl

/-- The pagination loop shared by `__init_zones__` (lines 248-273) and
`__init_records_for_zone__` (lines 294-344): fetch page `page`, append the
results, add the reported per-page count (`len(result)`) to `fetched`,
stop when `fetched >= total_count`, else increment the page. The endpoint
is a function from page number to that page's results; `fuel` bounds the
number of requests (the source has no page cap). Returns the accumulated
results and the list of pages requested. -/
def fetchLoop (endpoint : Nat → List Nat) (total : Nat) :
    Nat → Nat → Nat → List Nat → List Nat → Option (List Nat × List Nat)
  | 0, _, _, _, _ => none
  | fuel + 1, page, fetched, acc, pages =>
      let res := endpoint page
      let acc2 := acc ++ res
      let fetched2 := fetched + res.length
      let pages2 := pages ++ [page]
      if total ≤ fetched2 then some (acc2, pages2)
      else fetchLoop endpoint total fuel (page + 1) fetched2 acc2 pages2

/-- Drive the pagination loop from page 1 as both init functions do. -/
def fetchAll (endpoint : Nat → List Nat) (total fuel : Nat) :
    Option (List Nat × List Nat) :=
  fetchLoop endpoint total fuel 1 0 [] []

/-- A simulated list endpoint serving the master list `L` in pages of
`per_page`, reporting `total_count = L.length`. -/
def pagesOf (L : List Nat) (per_page page : Nat) : List Nat :=
  (L.drop ((page - 1) * per_page)).take per_page

theorem fetchLoop_chunked_general (L : List Nat) (pp : Nat) (hpp : 0 < pp) :
    ∀ fuel q pages, q * pp < L.length →
      fuel = (L.length - q * pp + pp - 1) / pp →
      fetchLoop (pagesOf L pp) L.length fuel (q + 1) (q * pp)
        (L.take (q * pp)) pages =
      some (L, pages ++ List.range' (q + 1) fuel) := by
  intro fuel
  induction fuel with
  | zero =>
    intro q pages hlt hfuel
    exfalso
    have h0 : L.length - q * pp + pp - 1 < pp :=
      (Nat.div_eq_zero_iff hpp).mp hfuel.symm
    omega
  | succ f ih =>
    intro q pages hlt hfuel
    have hres : (pagesOf L pp (q + 1)).length = min pp (L.length - q * pp) := by
      simp [pagesOf, List.length_take, List.length_drop]
    by_cases hstop : L.length ≤ q * pp + (pagesOf L pp (q + 1)).length
    · rw [fetchLoop, if_pos hstop]
      have hrem : L.length - q * pp ≤ pp := by
        rw [hres] at hstop
        omega
      have hf0 : f = 0 := by
        have hlo : 1 ≤ (L.length - q * pp + pp - 1) / pp :=
          (Nat.le_div_iff_mul_le hpp).mpr (by omega)
        have hhi : (L.length - q * pp + pp - 1) / pp < 2 :=
          (Nat.div_lt_iff_lt_mul hpp).mpr (by omega)
        omega
      have hacc : L.take (q * pp) ++ pagesOf L pp (q + 1) = L := by
        have hdrop : pagesOf L pp (q + 1) = L.drop (q * pp) := by
          simp only [pagesOf, Nat.add_sub_cancel]
          exact List.take_of_length_le (by simp [List.length_drop]; omega)
        rw [hdrop, List.take_append_drop]
      rw [hacc, hf0]
      rfl
    · rw [fetchLoop, if_neg hstop]
      have hrem : pp < L.length - q * pp := by
        rw [hres] at hstop
        omega
      have hsucc : q * pp + pp = (q + 1) * pp := by ring
      have hacc2 : L.take (q * pp) ++ pagesOf L pp (q + 1) =
          L.take ((q + 1) * pp) := by
        simp only [pagesOf, Nat.add_sub_cancel]
        rw [← hsucc, List.take_add]
      have hlen2 : q * pp + (pagesOf L pp (q + 1)).length = (q + 1) * pp := by
        rw [hres]
        omega
      have hlt2 : (q + 1) * pp < L.length := by omega
      have hfuel2 : f = (L.length - (q + 1) * pp + pp - 1) / pp := by
        have e1 : L.length - q * pp + pp - 1 =
            (L.length - (q + 1) * pp + pp - 1) + pp := by omega
        rw [e1, Nat.add_div_right _ hpp] at hfuel
        omega
      have hrec := ih (q + 1) (pages ++ [q + 1]) hlt2 hfuel2
      rw [hacc2, hlen2]
      rw [hrec, List.append_assoc]
      simp [List.range'_succ]

/-- C5: the pagination loop shared by the zone and record listings is
complete on every chunked endpoint: for a master list of any positive
length served in pages of any positive size `pp`, it issues exactly
ceil(length / pp) page requests, numbered 1, 2, ..., and returns exactly
the master list (so nothing missing and nothing duplicated); in
particular, for total_count 450 over pages of 200 it issues exactly the
three page requests 1, 2, 3 and returns all 450 records, none
duplicated. -/
theorem pagination_450_over_200_complete :
    (∀ (L : List Nat) (pp : Nat), 0 < pp → 0 < L.length →
      fetchAll (pagesOf L pp) L.length ((L.length + pp - 1) / pp) =
        some (L, List.range' 1 ((L.length + pp - 1) / pp))) ∧
    fetchAll (pagesOf (List.range 450) 200) 450 450 =
      some (List.range 450, [1, 2, 3]) ∧
    (List.range 450).Nodup := by
  refine ⟨?_, ?_, List.nodup_range 450⟩
  · intro L pp hpp hlen
    have h := fetchLoop_chunked_general L pp hpp ((L.length + pp - 1) / pp) 0 []
      (by simpa) (by simp)
    simpa [fetchAll] using h
  · set_option maxRecDepth 10000 in decide

/-- C5 witness: the general completeness statement applied to the
two-element master list served one record per page. -/
theorem pagination_450_over_200_complete_witness :
    fetchAll (pagesOf [5, 7] 1) ([5, 7] : List Nat).length
        ((([5, 7] : List Nat).length + 1 - 1) / 1) =
      some ([5, 7], List.range' 1 ((([5, 7] : List Nat).length + 1 - 1) / 1)) :=
  pagination_450_over_200_complete.1 [5, 7] 1 (by decide) (by decide)

/-- Recognises the three `CloudFlareError` raise sites of the
update/delete double checks: missing record id, missing content key, and
id mismatch ("Inconsistent record ... in local cache"). -/
def isCacheErr {α : Type} : Except CFError α → Bool
  | Except.error (CFError.recordIdNotInCache _) => true
  | Except.error (CFError.recordKeyNotInCache _ _ _) => true
  | Except.error (CFError.inconsistentCache _ _ _ _) => true
  | _ => false

/-- The precondition of `__update_record_by_id__` is violated: the record
id is absent from the per-id map, or the (name, type, old content) key is
absent from the nested view of the resolved zone, or the id found there
differs from the requested one. -/
def updateChecksFail (s : CFState) (zn : Dom) (record_id : RecId)
    (name : Dom) (dnsType : String) : Prop :=
  alookup s.dns_records record_id = none ∨
  (∃ old, alookup s.dns_records record_id = some old ∧
    (viewLookupZ s.zones zn name dnsType old.content = none ∨
     (∃ rid2, viewLookupZ s.zones zn name dnsType old.content = some rid2 ∧
       rid2 ≠ record_id)))

/-- The precondition of `__delete_record_by_id__` is violated (with the
record's own zone present in the zones map, as it always is for cached
records). -/
def deleteChecksFail (s : CFState) (record_id : RecId) : Prop :=
  alookup s.dns_records record_id = none ∨
  (∃ rec, alookup s.dns_records record_id = some rec ∧
    (alookup s.zones rec.zone_name).isSome = true ∧
    (viewLookupZ s.zones rec.zone_name rec.name rec.rtype rec.content = none ∨
     (∃ rid2, viewLookupZ s.zones rec.zone_name rec.name rec.rtype rec.content =
        some rid2 ∧ rid2 ≠ record_id)))

/-- C6: whenever the double check preceding an update or delete by record
id fails — id absent from the per-id map, content key absent from the
nested view, or the two views disagreeing on the id — the operation
returns the fatal inconsistent-local-cache `CloudFlareError`, the state
(both cache views and the call trace) is returned unchanged, and in
particular no remote call is issued. -/
theorem cache_guard_fatal_before_remote_call :
    (∀ (s : CFState) (record_id : RecId) (name : Dom)
        (dnsType content : String) (ttlArg : Option Nat)
        (proxiedArg : Option Bool) (zn : Dom),
      getZoneName s name = Except.ok zn →
      (alookup s.zones zn).isSome = true →
      updateChecksFail s zn record_id name dnsType →
      (updateRecordById s record_id name dnsType content ttlArg proxiedArg).1 = s ∧
      isCacheErr
        (updateRecordById s record_id name dnsType content ttlArg proxiedArg).2 =
        true) ∧
    (∀ (s : CFState) (zone_id : String) (record_id : RecId),
      deleteChecksFail s record_id →
      (deleteRecordById s zone_id record_id).1 = s ∧
      isCacheErr (deleteRecordById s zone_id record_id).2 = true) := by
  constructor
  · intro s record_id name dnsType content ttlArg proxiedArg zn h1 h2 hfail
    obtain ⟨ze, hze⟩ := Option.isSome_iff_exists.mp h2
    have hzid : getZoneId s name = Except.ok ze.id := by
      simp [getZoneId, h1, hze]
    rcases hfail with hnone | ⟨old, hold, hview⟩
    · simp [updateRecordById, hzid, h1, hnone, isCacheErr]
    · rcases hview with hvnone | ⟨rid2, hvsome, hne⟩
      · simp only [viewLookupZ, hze] at hvnone
        cases hrec : ze.records with
        | none =>
          simp [updateRecordById, hzid, h1, hold, hze, hrec, isCacheErr]
        | some nm =>
          rw [hrec] at hvnone
          have hv : nmLookup nm name dnsType old.content = none := by
            simpa using hvnone
          simp [updateRecordById, hzid, h1, hold, hze, hrec, hv, isCacheErr]
      · simp only [viewLookupZ, hze] at hvsome
        cases hrec : ze.records with
        | none => rw [hrec] at hvsome; cases hvsome
        | some nm =>
          rw [hrec] at hvsome
          have hv : nmLookup nm name dnsType old.content = some rid2 := by
            simpa using hvsome
          simp [updateRecordById, hzid, h1, hold, hze, hrec, hv, hne,
            isCacheErr]
  · intro s zone_id record_id hfail
    rcases hfail with hnone | ⟨rec, hrec, hzs, hview⟩
    · simp [deleteRecordById, hnone, isCacheErr]
    · obtain ⟨ze, hze⟩ := Option.isSome_iff_exists.mp hzs
      rcases hview with hvnone | ⟨rid2, hvsome, hne⟩
      · simp only [viewLookupZ, hze] at hvnone
        cases hr : ze.records with
        | none =>
          simp [deleteRecordById, hrec, hze, hr, isCacheErr]
        | some nm =>
          rw [hr] at hvnone
          have hv : nmLookup nm rec.name rec.rtype rec.content = none := by
            simpa using hvnone
          simp [deleteRecordById, hrec, hze, hr, hv, isCacheErr]
      · simp only [viewLookupZ, hze] at hvsome
        cases hr : ze.records with
        | none => rw [hr] at hvsome; cases hvsome
        | some nm =>
          rw [hr] at hvsome
          have hv : nmLookup nm rec.name rec.rtype rec.content = some rid2 := by
            simpa using hvsome
          simp [deleteRecordById, hrec, hze, hr, hv, hne, isCacheErr]

/-- C6 scenario: a session with one empty zone and an empty record cache,
on which id 5 is unknown. -/
def c6_s0 : CFState :=
  { zones := [(["a", "com"], { id := "z1", records := some [] })],
    zones_list := [["a", "com"]],
    dns_records := [], ttl := 300, proxied := false, nextId := 1, calls := [] }

/-- C6 witness: updating or deleting the unknown record id 5 leaves the
state untouched and yields the fatal cache error. -/
theorem cache_guard_fatal_before_remote_call_witness :
    ((updateRecordById c6_s0 5 ["home", "a", "com"] "A" "9.9.9.9"
        none none).1 = c6_s0 ∧
      isCacheErr (updateRecordById c6_s0 5 ["home", "a", "com"] "A" "9.9.9.9"
        none none).2 = true) ∧
    ((deleteRecordById c6_s0 "z1" 5).1 = c6_s0 ∧
      isCacheErr (deleteRecordById c6_s0 "z1" 5).2 = true) :=
  ⟨cache_guard_fatal_before_remote_call.1 c6_s0 5 ["home", "a", "com"] "A"
      "9.9.9.9" none none ["a", "com"] rfl rfl (Or.inl rfl),
   cache_guard_fatal_before_remote_call.2 c6_s0 "z1" 5 (Or.inl rfl)⟩

theorem nmLookup_nmInsert (nm : NameMap) (n : Dom) (ty c : String) (rid : RecId)
    (n' : Dom) (ty' c' : String) :
    nmLookup (nmInsert nm n ty c rid) n' ty' c' =
      if n' = n ∧ ty' = ty ∧ c' = c then some rid
      else nmLookup nm n' ty' c' := by
  by_cases hn : n' = n
  · subst hn
    by_cases hty : ty' = ty
    · subst hty
      by_cases hc : c' = c
      · subst hc
        simp [nmInsert, nmLookup, alookup_ainsert]
      · rw [if_neg (by tauto)]
        cases h1 : alookup nm n' with
        | none => simp [nmInsert, nmLookup, alookup_ainsert, h1, hc, alookup]
        | some tm =>
          cases h2 : alookup tm ty' with
          | none =>
            simp [nmInsert, nmLookup, alookup_ainsert, h1, h2, hc, alookup]
          | some cm =>
            simp [nmInsert, nmLookup, alookup_ainsert, h1, h2, hc]
    · rw [if_neg (by tauto)]
      cases h1 : alookup nm n' with
      | none => simp [nmInsert, nmLookup, alookup_ainsert, h1, hty, alookup]
      | some tm => simp [nmInsert, nmLookup, alookup_ainsert, h1, hty]
  · rw [if_neg (by tauto)]
    simp [nmInsert, nmLookup, alookup_ainsert, hn]

theorem nmLookup_nmErase (nm : NameMap) (n : Dom) (ty c : String)
    (n' : Dom) (ty' c' : String) :
    nmLookup (nmErase nm n ty c) n' ty' c' =
      if n' = n ∧ ty' = ty ∧ c' = c then none
      else nmLookup nm n' ty' c' := by
  cases h1 : alookup nm n with
  | none =>
    simp only [nmErase, h1]
    by_cases hh : n' = n ∧ ty' = ty ∧ c' = c
    · obtain ⟨rfl, rfl, rfl⟩ := hh
      simp [nmLookup, h1]
    · simp [hh]
  | some tm =>
    cases h2 : alookup tm ty with
    | none =>
      simp only [nmErase, h1, h2]
      by_cases hh : n' = n ∧ ty' = ty ∧ c' = c
      · obtain ⟨rfl, rfl, rfl⟩ := hh
        simp [nmLookup, h1, h2]
      · simp [hh]
    | some cm =>
      simp only [nmErase, h1, h2]
      by_cases hn : n' = n
      · subst hn
        by_cases hty : ty' = ty
        · subst hty
          by_cases hc : c' = c
          · subst hc
            simp [nmLookup, alookup_ainsert, alookup_aerase, h1, h2]
          · rw [if_neg (by tauto)]
            simp [nmLookup, alookup_ainsert, alookup_aerase, h1, h2, hc]
        · rw [if_neg (by tauto)]
          simp [nmLookup, alookup_ainsert, h1, hty]
      · rw [if_neg (by tauto)]
        simp [nmLookup, alookup_ainsert, hn]

theorem viewLookupZ_ainsert (zones : List (Dom × ZoneEntry)) (zn : Dom)
    (ze : ZoneEntry) (zn' n : Dom) (ty c : String) :
    viewLookupZ (ainsert zones zn ze) zn' n ty c =
      if zn' = zn then
        match ze.records with
        | none => none
        | some nm => nmLookup nm n ty c
      else viewLookupZ zones zn' n ty c := by
  by_cases h : zn' = zn
  · subst h
    simp [viewLookupZ, alookup_ainsert]
  · simp [viewLookupZ, alookup_ainsert, h]

/-- Flatten one content map to (zone, name, type, content, id) tuples. -/
def cmFlat (zn n : Dom) (ty : String) (cm : ContentMap) :
    List (Dom × Dom × String × String × RecId) :=
  cm.map (fun p => (zn, n, ty, p.1, p.2))

/-- Flatten one type map. -/
def tmFlat (zn n : Dom) (tm : TypeMap) :
    List (Dom × Dom × String × String × RecId) :=
  (tm.map (fun p => cmFlat zn n p.1 p.2)).flatten

/-- Flatten one name map. -/
def nmFlat (zn : Dom) (nm : NameMap) :
    List (Dom × Dom × String × String × RecId) :=
  (nm.map (fun p => tmFlat zn p.1 p.2)).flatten

/-- Flatten the whole nested zone view. -/
def zFlat (zones : List (Dom × ZoneEntry)) :
    List (Dom × Dom × String × String × RecId) :=
  (zones.map (fun p => nmFlat p.1 (p.2.records.getD []))).flatten

theorem mem_of_viewLookupZ (zones : List (Dom × ZoneEntry)) (zn n : Dom)
    (ty c : String) (rid : RecId)
    (h : viewLookupZ zones zn n ty c = some rid) :
    (zn, n, ty, c, rid) ∈ zFlat zones := by
  rw [viewLookupZ] at h
  cases hz : alookup zones zn with
  | none => simp [hz] at h
  | some ze =>
    simp only [hz] at h
    cases hr : ze.records with
    | none => simp [hr] at h
    | some nm =>
      simp only [hr] at h
      rw [nmLookup] at h
      cases h1 : alookup nm n with
      | none => simp [h1] at h
      | some tm =>
        simp only [h1] at h
        cases h2 : alookup tm ty with
        | none => simp [h2] at h
        | some cm =>
          simp only [h2] at h
          have hmem_cm : (c, rid) ∈ cm := alookup_mem cm c rid h
          have hmem1 : (zn, n, ty, c, rid) ∈ cmFlat zn n ty cm :=
            List.mem_map.mpr ⟨(c, rid), hmem_cm, rfl⟩
          have hmem2 : (zn, n, ty, c, rid) ∈ tmFlat zn n tm := by
            rw [tmFlat, List.mem_flatten]
            exact ⟨cmFlat zn n ty cm,
              List.mem_map.mpr ⟨(ty, cm), alookup_mem tm ty cm h2, rfl⟩, hmem1⟩
          have hmem3 : (zn, n, ty, c, rid) ∈ nmFlat zn nm := by
            rw [nmFlat, List.mem_flatten]
            exact ⟨tmFlat zn n tm,
              List.mem_map.mpr ⟨(n, tm), alookup_mem nm n tm h1, rfl⟩, hmem2⟩
          rw [zFlat, List.mem_flatten]
          refine ⟨nmFlat zn (ze.records.getD []), ?_, ?_⟩
          · exact List.mem_map.mpr ⟨(zn, ze), alookup_mem zones zn ze hz, rfl⟩
          · rw [hr]
            exact hmem3

/-- Agreement of the two cache views (the section 3 invariant): every
record of the per-id map is keyed by its own id, has an id below the
provider's counter, and is found in the nested view at its own (zone,
name, type, content) key; conversely every nested-view entry points to a
cached record carrying exactly that key. -/
def WF (s : CFState) : Prop :=
  (∀ rid r, alookup s.dns_records rid = some r →
    r.id = rid ∧ rid < s.nextId ∧
    viewLookupZ s.zones r.zone_name r.name r.rtype r.content = some rid) ∧
  (∀ zn n ty c rid, viewLookupZ s.zones zn n ty c = some rid →
    ∃ r, alookup s.dns_records rid = some r ∧ r.zone_name = zn ∧
      r.name = n ∧ r.rtype = ty ∧ r.content = c)

/-- Executable check of `WF` over the stored entries. -/
def wfCheck (s : CFState) : Bool :=
  s.dns_records.all (fun p =>
    decide (p.2.id = p.1) && decide (p.1 < s.nextId) &&
    decide (viewLookupZ s.zones p.2.zone_name p.2.name p.2.rtype p.2.content =
      some p.1)) &&
  (zFlat s.zones).all (fun e =>
    match alookup s.dns_records e.2.2.2.2 with
    | some r => decide (r.zone_name = e.1) && decide (r.name = e.2.1) &&
        decide (r.rtype = e.2.2.1) && decide (r.content = e.2.2.2.1)
    | none => false)

theorem WF_of_wfCheck (s : CFState) (h : wfCheck s = true) : WF s := by
  rw [wfCheck, Bool.and_eq_true] at h
  obtain ⟨h1, h2⟩ := h
  rw [List.all_eq_true] at h1 h2
  constructor
  · intro rid r hr
    have hm := h1 (rid, r) (alookup_mem _ _ _ hr)
    simp only [Bool.and_eq_true, decide_eq_true_eq] at hm
    exact ⟨hm.1.1, hm.1.2, hm.2⟩
  · intro zn n ty c rid hv
    have hm := h2 (zn, n, ty, c, rid) (mem_of_viewLookupZ _ _ _ _ _ _ hv)
    simp only at hm
    cases hd : alookup s.dns_records rid with
    | none => rw [hd] at hm; cases hm
    | some r =>
      rw [hd] at hm
      simp only [Bool.and_eq_true, decide_eq_true_eq] at hm
      exact ⟨r, rfl, hm.1.1.1, hm.1.1.2, hm.1.2, hm.2⟩

theorem viewLookupZ_some_zone (zones : List (Dom × ZoneEntry)) (zn : Dom)
    (ze : ZoneEntry) (h : alookup zones zn = some ze) (n : Dom) (ty c : String) :
    viewLookupZ zones zn n ty c = nmLookup (ze.records.getD []) n ty c := by
  rw [viewLookupZ, h]
  cases hr : ze.records with
  | none => simp [hr, nmLookup, alookup]
  | some nm => simp [hr]

theorem createOneRecord_WF (s : CFState) (name : Dom) (dnsType content : String)
    (ttlArg : Option Nat) (proxiedArg : Option Bool) (s' : CFState)
    (r : DnsRecord) (hWF : WF s)
    (heq : createOneRecord s name dnsType content ttlArg proxiedArg =
      (s', Except.ok r))
    (hfree : ∀ zn, getZoneName s name = Except.ok zn →
      viewLookupZ s.zones zn name dnsType content = none) :
    WF s' := by
  rw [createOneRecord] at heq
  cases hz1 : getZoneId s name with
  | error e => simp only [hz1] at heq; simp at heq
  | ok zid =>
    simp only [hz1] at heq
    cases hz2 : getZoneName s name with
    | error e => simp only [hz2] at heq; simp at heq
    | ok zn =>
      simp only [hz2] at heq
      cases hz3 : alookup s.zones zn with
      | none => simp only [hz3] at heq; simp at heq
      | some ze =>
        simp only [hz3, Prod.mk.injEq, Except.ok.injEq] at heq
        obtain ⟨hs', hr⟩ := heq
        have hfree' := hfree zn hz2
        rw [viewLookupZ_some_zone s.zones zn ze hz3] at hfree'
        subst hs'
        subst hr
        constructor
        · intro rid r' hr'
          rw [alookup_ainsert] at hr'
          by_cases hrid : rid = s.nextId
          · subst hrid
            rw [if_pos rfl] at hr'
            cases hr'
            refine ⟨rfl, Nat.lt_succ_self _, ?_⟩
            rw [viewLookupZ_ainsert]
            simp [nmLookup_nmInsert]
          · rw [if_neg hrid] at hr'
            obtain ⟨hid, hlt, hview⟩ := hWF.1 rid r' hr'
            refine ⟨hid, Nat.lt_succ_of_lt hlt, ?_⟩
            rw [viewLookupZ_ainsert]
            by_cases hzn' : r'.zone_name = zn
            · rw [if_pos hzn']
              simp only [nmLookup_nmInsert]
              by_cases hkey : r'.name = name ∧ r'.rtype = dnsType ∧
                  r'.content = content
              · exfalso
                obtain ⟨e1, e2, e3⟩ := hkey
                rw [hzn'] at hview
                rw [viewLookupZ_some_zone s.zones zn ze hz3] at hview
                rw [e1, e2, e3] at hview
                rw [hview] at hfree'
                cases hfree'
              · rw [if_neg hkey]
                rw [hzn'] at hview
                rw [viewLookupZ_some_zone s.zones zn ze hz3] at hview
                exact hview
            · rw [if_neg hzn']
              exact hview
        · intro zn' n' ty' c' rid hv
          rw [viewLookupZ_ainsert] at hv
          by_cases hzn' : zn' = zn
          · rw [if_pos hzn'] at hv
            simp only [nmLookup_nmInsert] at hv
            by_cases hkey : n' = name ∧ ty' = dnsType ∧ c' = content
            · rw [if_pos hkey] at hv
              cases hv
              obtain ⟨k1, k2, k3⟩ := hkey
              subst hzn'
              subst k1
              subst k2
              subst k3
              refine ⟨_, by rw [alookup_ainsert, if_pos rfl], rfl, rfl, rfl, rfl⟩
            · rw [if_neg hkey] at hv
              have hv' : viewLookupZ s.zones zn' n' ty' c' = some rid := by
                rw [hzn', viewLookupZ_some_zone s.zones zn ze hz3]
                exact hv
              obtain ⟨rr, hrr, f1, f2, f3, f4⟩ := hWF.2 zn' n' ty' c' rid hv'
              have hlt := (hWF.1 rid rr hrr).2.1
              refine ⟨rr, ?_, f1, f2, f3, f4⟩
              rw [alookup_ainsert, if_neg (Nat.ne_of_lt hlt)]
              exact hrr
          · rw [if_neg hzn'] at hv
            obtain ⟨rr, hrr, f1, f2, f3, f4⟩ := hWF.2 zn' n' ty' c' rid hv
            have hlt := (hWF.1 rid rr hrr).2.1
            refine ⟨rr, ?_, f1, f2, f3, f4⟩
            rw [alookup_ainsert, if_neg (Nat.ne_of_lt hlt)]
            exact hrr

theorem updateRecordById_WF (s : CFState) (record_id : RecId) (name : Dom)
    (dnsType content : String) (ttlArg : Option Nat) (proxiedArg : Option Bool)
    (s' : CFState) (r : DnsRecord) (hWF : WF s)
    (heq : updateRecordById s record_id name dnsType content ttlArg proxiedArg =
      (s', Except.ok r))
    (hEng : ∀ zn old, getZoneName s name = Except.ok zn →
      alookup s.dns_records record_id = some old →
      content = old.content ∨
      viewLookupZ s.zones zn name dnsType content = none) :
    WF s' := by
  rw [updateRecordById] at heq
  cases hz1 : getZoneId s name with
  | error e => simp only [hz1] at heq; simp at heq
  | ok zid =>
    simp only [hz1] at heq
    cases hz2 : getZoneName s name with
    | error e => simp only [hz2] at heq; simp at heq
    | ok zn =>
      simp only [hz2] at heq
      cases hold : alookup s.dns_records record_id with
      | none => simp only [hold] at heq; simp at heq
      | some old =>
        simp only [hold] at heq
        cases hz3 : alookup s.zones zn with
        | none => simp only [hz3] at heq; simp at heq
        | some ze =>
          simp only [hz3] at heq
          cases hrec : ze.records with
          | none => simp only [hrec] at heq; simp at heq
          | some nm =>
            simp only [hrec] at heq
            cases hfound : nmLookup nm name dnsType old.content with
            | none => simp only [hfound] at heq; simp at heq
            | some fid =>
              simp only [hfound] at heq
              by_cases hfid : fid = record_id
              · subst hfid
                rw [if_neg (by simp)] at heq
                have hview0 : viewLookupZ s.zones zn name dnsType old.content =
                    some fid := by
                  rw [viewLookupZ_some_zone s.zones zn ze hz3, hrec]
                  simpa using hfound
                obtain ⟨rold, hrold, g1, g2, g3, g4⟩ :=
                  hWF.2 zn name dnsType old.content fid hview0
                have hro : rold = old := by
                  rw [hold] at hrold
                  injection hrold with hh
                  exact hh.symm
                subst hro
                have hltfid : fid < s.nextId := (hWF.1 fid rold hold).2.1
                by_cases hcc : rold.content = content
                · rw [if_neg (by simpa using hcc)] at heq
                  simp only [Prod.mk.injEq, Except.ok.injEq] at heq
                  obtain ⟨hs', hr⟩ := heq
                  subst hs'
                  subst hr
                  constructor
                  · intro rid r' hr'
                    rw [alookup_ainsert] at hr'
                    by_cases hrid : rid = fid
                    · subst hrid
                      rw [if_pos rfl] at hr'
                      cases hr'
                      refine ⟨rfl, hltfid, ?_⟩
                      show viewLookupZ s.zones zn name dnsType content = some rid
                      rw [← hcc]
                      exact hview0
                    · rw [if_neg hrid] at hr'
                      obtain ⟨hid, hlt, hview⟩ := hWF.1 rid r' hr'
                      exact ⟨hid, hlt, hview⟩
                  · intro zn' n' ty' c' rid hv
                    obtain ⟨rr, hrr, f1, f2, f3, f4⟩ := hWF.2 zn' n' ty' c' rid hv
                    by_cases hrid : rid = fid
                    · subst hrid
                      have hrro : rr = rold := by
                        rw [hold] at hrr
                        injection hrr with hh
                        exact hh.symm
                      subst hrro
                      refine ⟨_, by rw [alookup_ainsert, if_pos rfl], ?_, ?_, ?_, ?_⟩
                      · exact g1.symm.trans f1
                      · exact g2.symm.trans f2
                      · exact g3.symm.trans f3
                      · exact hcc.symm.trans f4
                    · refine ⟨rr, ?_, f1, f2, f3, f4⟩
                      rw [alookup_ainsert, if_neg hrid]
                      exact hrr
                · rw [if_pos (by simpa using hcc)] at heq
                  simp only [Prod.mk.injEq, Except.ok.injEq] at heq
                  obtain ⟨hs', hr⟩ := heq
                  subst hs'
                  subst hr
                  have hfree : viewLookupZ s.zones zn name dnsType content =
                      none := by
                    rcases hEng zn rold hz2 hold with h | h
                    · exact absurd h.symm hcc
                    · exact h
                  have hfreeN : nmLookup nm name dnsType content = none := by
                    rw [viewLookupZ_some_zone s.zones zn ze hz3, hrec] at hfree
                    simpa using hfree
                  constructor
                  · intro rid r' hr'
                    rw [alookup_ainsert] at hr'
                    by_cases hrid : rid = fid
                    · subst hrid
                      rw [if_pos rfl] at hr'
                      cases hr'
                      refine ⟨rfl, hltfid, ?_⟩
                      rw [viewLookupZ_ainsert, if_pos rfl]
                      simp [nmLookup_nmInsert]
                    · rw [if_neg hrid] at hr'
                      obtain ⟨hid, hlt, hview⟩ := hWF.1 rid r' hr'
                      refine ⟨hid, hlt, ?_⟩
                      rw [viewLookupZ_ainsert]
                      by_cases hzn' : r'.zone_name = zn
                      · rw [if_pos hzn']
                        rw [hzn'] at hview
                        rw [viewLookupZ_some_zone s.zones zn ze hz3, hrec] at hview
                        simp only [Option.getD_some] at hview
                        simp only [nmLookup_nmInsert]
                        by_cases hkeyn : r'.name = name ∧ r'.rtype = dnsType ∧
                            r'.content = content
                        · exfalso
                          obtain ⟨e1, e2, e3⟩ := hkeyn
                          rw [e1, e2, e3, hfreeN] at hview
                          cases hview
                        · rw [if_neg hkeyn]
                          rw [nmLookup_nmErase]
                          by_cases hkeyo : r'.name = name ∧ r'.rtype = dnsType ∧
                              r'.content = rold.content
                          · exfalso
                            obtain ⟨e1, e2, e3⟩ := hkeyo
                            rw [e1, e2, e3, hfound] at hview
                            cases hview
                            exact hrid rfl
                          · rw [if_neg hkeyo]
                            exact hview
                      · rw [if_neg hzn']
                        exact hview
                  · intro zn' n' ty' c' rid hv
                    rw [viewLookupZ_ainsert] at hv
                    by_cases hzn' : zn' = zn
                    · rw [if_pos hzn'] at hv
                      simp only [nmLookup_nmInsert] at hv
                      by_cases hkeyn : n' = name ∧ ty' = dnsType ∧ c' = content
                      · rw [if_pos hkeyn] at hv
                        cases hv
                        obtain ⟨k1, k2, k3⟩ := hkeyn
                        subst hzn'
                        subst k1
                        subst k2
                        subst k3
                        refine ⟨_, by rw [alookup_ainsert, if_pos rfl],
                          rfl, rfl, rfl, rfl⟩
                      · rw [if_neg hkeyn] at hv
                        rw [nmLookup_nmErase] at hv
                        by_cases hkeyo : n' = name ∧ ty' = dnsType ∧
                            c' = rold.content
                        · rw [if_pos hkeyo] at hv
                          cases hv
                        · rw [if_neg hkeyo] at hv
                          have hv' : viewLookupZ s.zones zn' n' ty' c' =
                              some rid := by
                            rw [hzn', viewLookupZ_some_zone s.zones zn ze hz3,
                              hrec]
                            simpa using hv
                          obtain ⟨rr, hrr, f1, f2, f3, f4⟩ :=
                            hWF.2 zn' n' ty' c' rid hv'
                          have hrid : rid ≠ fid := by
                            intro hh
                            subst hh
                            have hrro : rr = rold := by
                              rw [hold] at hrr
                              injection hrr with hh
                              exact hh.symm
                            subst hrro
                            exact hkeyo ⟨f2.symm.trans g2, f3.symm.trans g3,
                              f4.symm⟩
                          refine ⟨rr, ?_, f1, f2, f3, f4⟩
                          rw [alookup_ainsert, if_neg hrid]
                          exact hrr
                    · rw [if_neg hzn'] at hv
                      obtain ⟨rr, hrr, f1, f2, f3, f4⟩ := hWF.2 zn' n' ty' c' rid hv
                      have hrid : rid ≠ fid := by
                        intro hh
                        subst hh
                        have hrro : rr = rold := by
                          rw [hold] at hrr
                          injection hrr with hh
                          exact hh.symm
                        subst hrro
                        exact hzn' (f1.symm.trans g1)
                      refine ⟨rr, ?_, f1, f2, f3, f4⟩
                      rw [alookup_ainsert, if_neg hrid]
                      exact hrr
              · rw [if_pos hfid] at heq
                simp at heq

theorem deleteRecordById_WF (s : CFState) (zone_id : String) (record_id : RecId)
    (s' : CFState) (res : String × String) (hWF : WF s)
    (heq : deleteRecordById s zone_id record_id = (s', Except.ok res)) :
    WF s' := by
  rw [deleteRecordById] at heq
  cases hold : alookup s.dns_records record_id with
  | none => simp only [hold] at heq; simp at heq
  | some rec0 =>
    simp only [hold] at heq
    cases hz3 : alookup s.zones rec0.zone_name with
    | none => simp only [hz3] at heq; simp at heq
    | some ze =>
      simp only [hz3] at heq
      cases hrec : ze.records with
      | none => simp only [hrec] at heq; simp at heq
      | some nm =>
        simp only [hrec] at heq
        cases hfound : nmLookup nm rec0.name rec0.rtype rec0.content with
        | none => simp only [hfound] at heq; simp at heq
        | some fid =>
          simp only [hfound] at heq
          by_cases hfid : fid = record_id
          · subst hfid
            rw [if_neg (by simp)] at heq
            simp only [Prod.mk.injEq, Except.ok.injEq] at heq
            obtain ⟨hs', _⟩ := heq
            subst hs'
            have hview0 : viewLookupZ s.zones rec0.zone_name rec0.name
                rec0.rtype rec0.content = some fid := by
              rw [viewLookupZ_some_zone s.zones rec0.zone_name ze hz3, hrec]
              simpa using hfound
            constructor
            · intro rid r' hr'
              rw [alookup_aerase] at hr'
              by_cases hrid : rid = fid
              · rw [if_pos hrid] at hr'
                cases hr'
              · rw [if_neg hrid] at hr'
                obtain ⟨hid, hlt, hview⟩ := hWF.1 rid r' hr'
                refine ⟨hid, hlt, ?_⟩
                rw [viewLookupZ_ainsert]
                by_cases hzn' : r'.zone_name = rec0.zone_name
                · rw [if_pos hzn']
                  rw [hzn'] at hview
                  rw [viewLookupZ_some_zone s.zones rec0.zone_name ze hz3,
                    hrec] at hview
                  simp only [Option.getD_some] at hview
                  simp only [nmLookup_nmErase]
                  by_cases hkey : r'.name = rec0.name ∧ r'.rtype = rec0.rtype ∧
                      r'.content = rec0.content
                  · exfalso
                    obtain ⟨e1, e2, e3⟩ := hkey
                    rw [e1, e2, e3, hfound] at hview
                    cases hview
                    exact hrid rfl
                  · rw [if_neg hkey]
                    exact hview
                · rw [if_neg hzn']
                  exact hview
            · intro zn' n' ty' c' rid hv
              rw [viewLookupZ_ainsert] at hv
              by_cases hzn' : zn' = rec0.zone_name
              · rw [if_pos hzn'] at hv
                simp only [nmLookup_nmErase] at hv
                by_cases hkey : n' = rec0.name ∧ ty' = rec0.rtype ∧
                    c' = rec0.content
                · rw [if_pos hkey] at hv
                  cases hv
                · rw [if_neg hkey] at hv
                  have hv' : viewLookupZ s.zones zn' n' ty' c' = some rid := by
                    rw [hzn',
                      viewLookupZ_some_zone s.zones rec0.zone_name ze hz3, hrec]
                    simpa using hv
                  obtain ⟨rr, hrr, f1, f2, f3, f4⟩ := hWF.2 zn' n' ty' c' rid hv'
                  have hrid : rid ≠ fid := by
                    intro hh
                    subst hh
                    have hrro : rr = rec0 := by
                      rw [hold] at hrr
                      injection hrr with hh2
                      exact hh2.symm
                    subst hrro
                    exact hkey ⟨f2.symm, f3.symm, f4.symm⟩
                  refine ⟨rr, ?_, f1, f2, f3, f4⟩
                  rw [alookup_aerase, if_neg hrid]
                  exact hrr
              · rw [if_neg hzn'] at hv
                obtain ⟨rr, hrr, f1, f2, f3, f4⟩ := hWF.2 zn' n' ty' c' rid hv
                have hrid : rid ≠ fid := by
                  intro hh
                  subst hh
                  have hrro : rr = rec0 := by
                    rw [hold] at hrr
                    injection hrr with hh2
                    exact hh2.symm
                  subst hrro
                  exact hzn' f1.symm
                refine ⟨rr, ?_, f1, f2, f3, f4⟩
                rw [alookup_aerase, if_neg hrid]
                exact hrr
          · rw [if_pos hfid] at heq
            simp at heq

/-- C7, amended: the two-view agreement invariant `WF` — a record id is
stored in the per-id map iff the nested zone view maps that record's
(zone, name, type, content) key to the same id (plus the id-counter bound
of the provider model) — is preserved by every successful
`__update_record_by_id__` (under the engine's precondition that the update
keeps the content or moves it to a free key; the update path always passes
the existing cached content), by every successful
`__delete_record_by_id__` unconditionally, and by every successful
`__create_one_record__` whose content key is not already present in the
nested view. The original unconditional claim fails exactly on the
remaining engine-performed creates: the unpopped create loop of
`update_records_new` re-creates an already-present content, which
overwrites the view entry with the new id while the per-id map keeps the
orphaned previous record — see the counterexample below. Each primitive
performs both view changes in the same step, so no other engine operation
can observe a state where only one view was updated. -/
theorem two_view_cache_agreement_preserved :
    (∀ (s : CFState) (name : Dom) (dnsType content : String)
        (ttlArg : Option Nat) (proxiedArg : Option Bool) (s' : CFState)
        (r : DnsRecord),
      WF s →
      createOneRecord s name dnsType content ttlArg proxiedArg =
        (s', Except.ok r) →
      (∀ zn, getZoneName s name = Except.ok zn →
        viewLookupZ s.zones zn name dnsType content = none) →
      WF s') ∧
    (∀ (s : CFState) (record_id : RecId) (name : Dom)
        (dnsType content : String) (ttlArg : Option Nat)
        (proxiedArg : Option Bool) (s' : CFState) (r : DnsRecord),
      WF s →
      updateRecordById s record_id name dnsType content ttlArg proxiedArg =
        (s', Except.ok r) →
      (∀ zn old, getZoneName s name = Except.ok zn →
        alookup s.dns_records record_id = some old →
        content = old.content ∨
        viewLookupZ s.zones zn name dnsType content = none) →
      WF s') ∧
    (∀ (s : CFState) (zone_id : String) (record_id : RecId) (s' : CFState)
        (res : String × String),
      WF s →
      deleteRecordById s zone_id record_id = (s', Except.ok res) →
      WF s') :=
  ⟨fun s name dnsType content ttlArg proxiedArg s' r hWF heq hfree =>
      createOneRecord_WF s name dnsType content ttlArg proxiedArg s' r hWF
        heq hfree,
   fun s record_id name dnsType content ttlArg proxiedArg s' r hWF heq hEng =>
      updateRecordById_WF s record_id name dnsType content ttlArg proxiedArg
        s' r hWF heq hEng,
   fun s zone_id record_id s' res hWF heq =>
      deleteRecordById_WF s zone_id record_id s' res hWF heq⟩

/-- C7 scenario, nested view of zone a.com with one record. -/
def c7_view : NameMap :=
  [(["home", "a", "com"], [("A", [("1.1.1.1", 1)])])]

/-- C7 scenario, the cached record. -/
def c7_rec1 : DnsRecord :=
  { id := 1, zone_name := ["a", "com"], name := ["home", "a", "com"],
    rtype := "A", content := "1.1.1.1", ttl := 300, proxied := false }

/-- C7 scenario, a consistent one-zone one-record session. -/
def c7_s0 : CFState :=
  { zones := [(["a", "com"], { id := "z1", records := some c7_view })],
    zones_list := [["a", "com"]],
    dns_records := [(1, c7_rec1)],
    ttl := 300, proxied := false, nextId := 2, calls := [] }

/-- C7 witness: agreement is preserved across a concrete create of a new
content, a concrete ttl-only update of record 1, and a concrete delete of
record 1. -/
theorem two_view_cache_agreement_preserved_witness :
    WF ((createOneRecord c7_s0 ["www", "a", "com"] "A" "5.5.5.5" (some 300)
      (some false)).1) ∧
    WF ((updateRecordById c7_s0 1 ["home", "a", "com"] "A" "1.1.1.1" (some 600)
      (some false)).1) ∧
    WF ((deleteRecordById c7_s0 "z1" 1).1) := by
  have hWF : WF c7_s0 := WF_of_wfCheck c7_s0 rfl
  refine ⟨?_, ?_, ?_⟩
  · refine two_view_cache_agreement_preserved.1 c7_s0 ["www", "a", "com"] "A"
      "5.5.5.5" (some 300) (some false) _
      { id := 2, zone_name := ["a", "com"], name := ["www", "a", "com"],
        rtype := "A", content := "5.5.5.5", ttl := 300, proxied := false }
      hWF rfl ?_
    intro zn h
    rw [show getZoneName c7_s0 ["www", "a", "com"] =
      Except.ok ["a", "com"] from rfl] at h
    injection h with h2
    subst h2
    rfl
  · refine two_view_cache_agreement_preserved.2.1 c7_s0 1 ["home", "a", "com"]
      "A" "1.1.1.1" (some 600) (some false) _
      { id := 1, zone_name := ["a", "com"], name := ["home", "a", "com"],
        rtype := "A", content := "1.1.1.1", ttl := 600, proxied := false }
      hWF rfl ?_
    intro zn old h1 h2
    left
    rw [show alookup c7_s0.dns_records 1 = some c7_rec1 from rfl] at h2
    injection h2 with h3
    subst h3
    rfl
  · exact two_view_cache_agreement_preserved.2.2 c7_s0 "z1" 1 _
      ("A", "1.1.1.1") hWF rfl

/-- State after the first create the engine performs on the C2 scenario
(the create loop of `update_records_new` issues exactly this call). -/
def c7_mid : CFState :=
  (createOneRecord c2_s0 ["www", "a", "com"] "CNAME" "target1.com" (some 300)
    (some false)).1

/-- State after the engine's second, repeated create of the same content
(the unpopped create loop re-processes the head of the missing list). -/
def c7_bad : CFState :=
  (createOneRecord c7_mid ["www", "a", "com"] "CNAME" "target1.com" (some 300)
    (some false)).1

/-- C7 counterexample: the original claim — after every successful create
performed through the engine the two views agree — is false. Starting from
the consistent C2 session, the engine's create loop performs a first
create (still consistent) and then, because the loop never removes the
processed element, a second successful create of the same content. After
it the views disagree: the nested view maps (a.com, www.a.com, CNAME,
target1.com) to the new id 2 while the per-id map still holds record 1
with exactly that key. The full engine run `c2_run` itself ends in such a
disagreeing state. -/
theorem engine_recreate_breaks_agreement :
    WF c2_s0 ∧ WF c7_mid ∧
    (createOneRecord c7_mid ["www", "a", "com"] "CNAME" "target1.com"
      (some 300) (some false)).2 = Except.ok
      { id := 2, zone_name := ["a", "com"], name := ["www", "a", "com"],
        rtype := "CNAME", content := "target1.com", ttl := 300,
        proxied := false } ∧
    ¬ WF c7_bad ∧ ¬ WF c2_run.1 := by
  refine ⟨WF_of_wfCheck c2_s0 rfl, WF_of_wfCheck c7_mid rfl, rfl, ?_, ?_⟩
  · intro h
    have h1 := (h.1 1
      { id := 1, zone_name := ["a", "com"], name := ["www", "a", "com"],
        rtype := "CNAME", content := "target1.com", ttl := 300,
        proxied := false } rfl).2.2
    exact absurd h1 (by decide)
  · intro h
    have h1 := (h.1 1
      { id := 1, zone_name := ["a", "com"], name := ["www", "a", "com"],
        rtype := "CNAME", content := "target1.com", ttl := 300,
        proxied := false } rfl).2.2
    exact absurd h1 (by decide)

/-- C8: frame of a successful `__update_record_by_id__` on the content-key
view. If the new content differs from the cached record's old content, the
entry moves from the old content key to the new one under the same record
id (new key maps to the id, old key is gone); if the content is unchanged
(a ttl/proxied-only update), the whole nested zones view is left exactly
as it was; and in every case all content keys other than the old and the
new one are untouched, so the entry is moved, never duplicated. -/
theorem update_content_key_frame (s : CFState) (record_id : RecId) (name : Dom)
    (dnsType content : String) (ttlArg : Option Nat) (proxiedArg : Option Bool)
    (s' : CFState) (r : DnsRecord) (zn : Dom) (old : DnsRecord)
    (hzn : getZoneName s name = Except.ok zn)
    (hold : alookup s.dns_records record_id = some old)
    (heq : updateRecordById s record_id name dnsType content ttlArg proxiedArg =
      (s', Except.ok r)) :
    (old.content ≠ content →
      viewLookupZ s'.zones zn name dnsType content = some record_id ∧
      viewLookupZ s'.zones zn name dnsType old.content = none) ∧
    (old.content = content → s'.zones = s.zones) ∧
    (∀ (zn' n' : Dom) (ty' c' : String),
      ¬(zn' = zn ∧ n' = name ∧ ty' = dnsType ∧
        (c' = content ∨ c' = old.content)) →
      viewLookupZ s'.zones zn' n' ty' c' = viewLookupZ s.zones zn' n' ty' c') := by
  rw [updateRecordById] at heq
  cases hz1 : getZoneId s name with
  | error e => simp only [hz1] at heq; simp at heq
  | ok zid =>
    simp only [hz1, hzn, hold] at heq
    cases hz3 : alookup s.zones zn with
    | none => simp only [hz3] at heq; simp at heq
    | some ze =>
      simp only [hz3] at heq
      cases hrec : ze.records with
      | none => simp only [hrec] at heq; simp at heq
      | some nm =>
        simp only [hrec] at heq
        cases hfound : nmLookup nm name dnsType old.content with
        | none => simp only [hfound] at heq; simp at heq
        | some fid =>
          simp only [hfound] at heq
          by_cases hfid : fid = record_id
          · subst hfid
            rw [if_neg (by simp)] at heq
            by_cases hcc : old.content = content
            · rw [if_neg (by simpa using hcc)] at heq
              simp only [Prod.mk.injEq, Except.ok.injEq] at heq
              obtain ⟨hs', _⟩ := heq
              subst hs'
              exact ⟨fun hne => absurd hcc hne, fun _ => rfl,
                fun _ _ _ _ _ => rfl⟩
            · rw [if_pos (by simpa using hcc)] at heq
              simp only [Prod.mk.injEq, Except.ok.injEq] at heq
              obtain ⟨hs', _⟩ := heq
              subst hs'
              refine ⟨?_, ?_, ?_⟩
              · intro hne
                constructor
                · rw [viewLookupZ_ainsert, if_pos rfl]
                  simp [nmLookup_nmInsert]
                · rw [viewLookupZ_ainsert, if_pos rfl]
                  simp [nmLookup_nmInsert, nmLookup_nmErase, hcc]
              · intro hh
                exact absurd hh hcc
              · intro zn' n' ty' c' hkey
                rw [viewLookupZ_ainsert]
                by_cases hzn' : zn' = zn
                · rw [if_pos hzn']
                  have hno_new : ¬(n' = name ∧ ty' = dnsType ∧ c' = content) :=
                    fun hh => hkey ⟨hzn', hh.1, hh.2.1, Or.inl hh.2.2⟩
                  have hno_old : ¬(n' = name ∧ ty' = dnsType ∧
                      c' = old.content) :=
                    fun hh => hkey ⟨hzn', hh.1, hh.2.1, Or.inr hh.2.2⟩
                  rw [hzn', viewLookupZ_some_zone s.zones zn ze hz3, hrec]
                  simp only [Option.getD_some, nmLookup_nmInsert,
                    nmLookup_nmErase, if_neg hno_new, if_neg hno_old]
                · rw [if_neg hzn']
          · rw [if_pos hfid] at heq
            simp at heq

/-- C8 witness: on the concrete consistent session, a content-changing
update of record 1 moves the view entry from "1.1.1.1" to "7.7.7.7" under
id 1 and leaves the unrelated content key "8.8.8.8" untouched, and a
ttl-only update leaves the zones view untouched. -/
theorem update_content_key_frame_witness :
    (viewLookupZ ((updateRecordById c7_s0 1 ["home", "a", "com"] "A" "7.7.7.7"
        (some 600) (some false)).1.zones) ["a", "com"] ["home", "a", "com"]
        "A" "7.7.7.7" = some 1 ∧
      viewLookupZ ((updateRecordById c7_s0 1 ["home", "a", "com"] "A" "7.7.7.7"
        (some 600) (some false)).1.zones) ["a", "com"] ["home", "a", "com"]
        "A" "1.1.1.1" = none) ∧
    (viewLookupZ ((updateRecordById c7_s0 1 ["home", "a", "com"] "A" "7.7.7.7"
        (some 600) (some false)).1.zones) ["a", "com"] ["home", "a", "com"]
        "A" "8.8.8.8" =
      viewLookupZ c7_s0.zones ["a", "com"] ["home", "a", "com"] "A" "8.8.8.8") ∧
    ((updateRecordById c7_s0 1 ["home", "a", "com"] "A" "1.1.1.1" (some 600)
      (some false)).1.zones = c7_s0.zones) := by
  have h := update_content_key_frame c7_s0 1 ["home", "a", "com"] "A"
    "7.7.7.7" (some 600) (some false) _
    { id := 1, zone_name := ["a", "com"], name := ["home", "a", "com"],
      rtype := "A", content := "7.7.7.7", ttl := 600, proxied := false }
    ["a", "com"] c7_rec1 rfl rfl rfl
  have h2 := update_content_key_frame c7_s0 1 ["home", "a", "com"] "A"
    "1.1.1.1" (some 600) (some false) _
    { id := 1, zone_name := ["a", "com"], name := ["home", "a", "com"],
      rtype := "A", content := "1.1.1.1", ttl := 600, proxied := false }
    ["a", "com"] c7_rec1 rfl rfl rfl
  exact ⟨h.1 (by decide),
    h.2.2 ["a", "com"] ["home", "a", "com"] "A" "8.8.8.8" (by decide),
    h2.2.1 rfl⟩
